import Mathlib

/-!
Verification development for the pycheddar client library
(`pycheddar/__init__.py`, `pycheddar/exceptions.py`).

The Python source is shallowly embedded: records (`CheddarObject` and its
subclasses) become a nested inductive `Record`; Python scalar values in a
record's `_data` dictionary become `Value`; Python exceptions relevant to the
modelled code paths become `PyErr`; XML elements (`xml.etree` nodes) become
`Xml`.  Dictionaries are modelled as association lists with insert-replace
semantics; Python 2 dictionaries are unordered, so every property proved
below is insensitive to the particular (insertion) order the model fixes.

The helper module `pycheddar/utils.py` (the snake_case/camelCase codec) is
not part of the provided sources; the two codec functions are modelled from
the specification and are marked as such.
-/

namespace PyCheddar

/-- Python scalar values as they occur in a record's `_data` dictionary:
`None`, `int`, `float` and `str`.  Python floats are modelled as exact
rationals; every float the code manufactures comes from parsing a finite
decimal literal, so no claim below depends on IEEE rounding. -/
inductive Value where
  | none : Value
  | int (n : Int) : Value
  | float (q : ℚ) : Value
  | str (s : String) : Value
deriving DecidableEq, Repr

/-- The Python exceptions raised by the modelled code paths
(`pycheddar/exceptions.py` subclasses are modelled separately for the
transport; these are the builtin exceptions). -/
inductive PyErr where
  | attributeError (msg : String) : PyErr
  | keyError : PyErr
  | valueError (msg : String) : PyErr
  | validationError (msg : String) : PyErr
  | typeError (msg : String) : PyErr
  | indexError : PyErr
deriving DecidableEq, Repr

/-- Python `==` on the scalar values above: `None == None` is true, numbers
compare by value across `int`/`float`, strings compare by content, and any
cross-kind comparison is false. -/
def pyEq : Value → Value → Bool
  | .none, .none => true
  | .int m, .int n => m == n
  | .int m, .float q => decide ((m : ℚ) = q)
  | .float q, .int m => decide (q = (m : ℚ))
  | .float p, .float q => p == q
  | .str s, .str t => s == t
  | _, _ => false

/-- Python truthiness of a scalar: `None`, `0`, `0.0` and `""` are falsy. -/
def pyFalsy : Value → Bool
  | .none => true
  | .int n => n == 0
  | .float q => q == 0
  | .str s => s == ""

/-- Truthiness of an optional value (`not self._code` where `_code` starts
out as `None`). -/
def pyFalsyOpt : Option Value → Bool
  | Option.none => true
  | Option.some v => pyFalsy v

/-- Python `str(...)` of a scalar, as used by string formatting.  The float
case prints the exact rational; no modelled claim formats a float. -/
def pyStr : Value → String
  | .none => "None"
  | .int n => toString n
  | .float q => toString q
  | .str s => s

/-- Python `+` on scalars: numeric addition (promoting to float when either
side is a float) and string concatenation; anything else raises `TypeError`. -/
def pyAdd : Value → Value → Except PyErr Value
  | .int m, .int n => .ok (.int (m + n))
  | .int m, .float q => .ok (.float ((m : ℚ) + q))
  | .float q, .int m => .ok (.float (q + (m : ℚ)))
  | .float p, .float q => .ok (.float (p + q))
  | .str s, .str t => .ok (.str (s ++ t))
  | _, _ => .error (.typeError "unsupported operand type(s) for +")

/-- Python 2 `<` between a scalar and a float constant.  Numbers compare by
value; in Python 2 a string compares greater than any number (mismatched
types are ordered by type name, and `"str" > "float"`) and `None` compares
less than everything. -/
def pyLtNum (v : Value) (q : ℚ) : Bool :=
  match v with
  | .none => true
  | .int n => decide ((n : ℚ) < q)
  | .float p => decide (p < q)
  | .str _ => false

/-- Python 2 `>` between a scalar and a float constant (see `pyLtNum`). -/
def pyGtNum (v : Value) (q : ℚ) : Bool :=
  match v with
  | .none => false
  | .int n => decide (q < (n : ℚ))
  | .float p => decide (q < p)
  | .str _ => true

/-- Modelled from the spec: `utils.to_underscores`, the camelCase →
snake_case direction of the field-name codec ("bidirectional mapping between
snake_case local field names and the external API's camelCase field names").
Each uppercase letter is replaced by an underscore followed by its lowercase
form. -/
def toUnderscores (s : String) : String :=
  String.mk (s.toList.foldr (fun c acc => if c.isUpper then '_' :: c.toLower :: acc else c :: acc) [])

/-- Helper for `toCamelCase`: collapse each underscore-letter pair. -/
def toCamelCaseAux : List Char → List Char
  | [] => []
  | '_' :: c :: rest => c.toUpper :: toCamelCaseAux rest
  | c :: rest => c :: toCamelCaseAux rest

/-- Modelled from the spec: `utils.to_camel_case`, the snake_case →
camelCase direction of the field-name codec: an underscore followed by a
letter becomes that letter uppercased. -/
def toCamelCase (s : String) : String :=
  String.mk (toCamelCaseAux s.toList)

/-- Python `str.capitalize()`: first character uppercased, the rest
lowercased. -/
def pyCapitalize (s : String) : String :=
  match s.toList with
  | [] => ""
  | c :: rest => String.mk (c.toUpper :: rest.map Char.toLower)

/-- Python `str.lower()`. -/
def pyLower (s : String) : String :=
  String.mk (s.toList.map Char.toLower)

/-- First-match lookup in an association list (a Python dictionary read
`d[k]` / `k in d`). -/
def lookupAssoc {α : Type} (key : String) : List (String × α) → Option α
  | [] => Option.none
  | (k, v) :: rest => if k = key then Option.some v else lookupAssoc key rest

/-- Insert-replace into an association list (a Python dictionary write
`d[k] = v`): replaces the first binding of `key`, else appends. -/
def insertAssoc {α : Type} (key : String) (v : α) : List (String × α) → List (String × α)
  | [] => [(key, v)]
  | (k, w) :: rest => if k = key then (key, v) :: rest else (k, w) :: insertAssoc key v rest

/-- The keys of an association list. -/
def keysOf {α : Type} (l : List (String × α)) : List String :=
  l.map Prod.fst

/-- A parsed XML element as produced by `xml.etree.ElementTree.fromstring`:
a tag, the `id` and `code` attributes (the only attributes the code reads),
the element text, and the child elements. -/
inductive Xml where
  | elem (tag : String) (idAttr : Option String) (codeAttr : Option String)
      (text : Option String) (children : List Xml) : Xml
deriving Repr

/-- The tag of an XML element. -/
def Xml.tag : Xml → String
  | .elem t _ _ _ _ => t

/-- The `id` attribute of an XML element (`xml.get('id')`). -/
def Xml.idAttr : Xml → Option String
  | .elem _ i _ _ _ => i

/-- The `code` attribute of an XML element (`xml.get('code')`). -/
def Xml.codeAttr : Xml → Option String
  | .elem _ _ c _ _ => c

/-- The text of an XML element. -/
def Xml.text : Xml → Option String
  | .elem _ _ _ t _ => t

/-- The children of an XML element (`xml.getchildren()`). -/
def Xml.children : Xml → List Xml
  | .elem _ _ _ _ cs => cs

/-- An instance-dictionary entry of a record that holds objects rather than
scalars: a nested `CheddarObject`, a list of them, or the back-reference to
the parent object that `CheddarObject.__init__` installs.  The parent
back-reference forms a cycle in Python; a pure tree cannot represent it, so
it is modelled as an opaque marker carrying the parent's class name.  No
modelled code path traverses a parent link. -/
inductive Assoc (ρ : Type) where
  | one (r : ρ) : Assoc ρ
  | many (rs : List ρ) : Assoc ρ
  | parentRef (kind : String) : Assoc ρ

/-- A `CheddarObject` instance: its class name, the `_id` and `_code`
attributes, the `_data` and `_clean_data` dictionaries, the other private
scalar attributes of `__dict__` (such as `_product_code`), and the
`__dict__` entries that hold objects or lists (nested records, `_clean_*`
references, the parent back-reference).  `_cursor` and `_product_code` are
written but never read by the source, so nothing depends on their values. -/
inductive Record where
  | mk (kind : String) (id : Option String) (code : Option Value)
      (data : List (String × Value)) (cleanData : List (String × Value))
      (internalData : List (String × Value))
      (objAttrs : List (String × Assoc Record)) : Record

/-- The class name of a record. -/
def Record.kind : Record → String
  | .mk k _ _ _ _ _ _ => k

/-- The `_id` attribute of a record. -/
def Record.id : Record → Option String
  | .mk _ i _ _ _ _ _ => i

/-- The `_code` attribute of a record. -/
def Record.code : Record → Option Value
  | .mk _ _ c _ _ _ _ => c

/-- The `_data` dictionary of a record. -/
def Record.data : Record → List (String × Value)
  | .mk _ _ _ d _ _ _ => d

/-- The `_clean_data` dictionary of a record. -/
def Record.cleanData : Record → List (String × Value)
  | .mk _ _ _ _ cd _ _ => cd

/-- The private scalar attributes of a record's `__dict__`. -/
def Record.internalData : Record → List (String × Value)
  | .mk _ _ _ _ _ idt _ => idt

/-- The object-valued attributes of a record's `__dict__`. -/
def Record.objAttrs : Record → List (String × Assoc Record)
  | .mk _ _ _ _ _ _ oa => oa

/-- A value passed to `setattr`: a scalar, a `CheddarObject`, or a list of
them (the three shapes the source ever assigns). -/
inductive SetVal where
  | val (v : Value) : SetVal
  | obj (r : Record) : SetVal
  | objs (rs : List Record) : SetVal

/-- A value produced by attribute access: a scalar, a record, a list of
records, a parent back-reference, a bound method of the `_data` dictionary
(first branch of `__getattr__`), or the `_data`/`_clean_data` dictionary
itself when accessed by its private name. -/
inductive GetVal where
  | val (v : Value) : GetVal
  | obj (r : Record) : GetVal
  | objs (rs : List Record) : GetVal
  | parentObj (kind : String) : GetVal
  | dictAttr (name : String) : GetVal
  | dataDict (entries : List (String × Value)) : GetVal

/-- Python truthiness of an attribute-access result: records and bound
methods are truthy, lists and dictionaries by non-emptiness, scalars by
`pyFalsy`. -/
def pyTruthyGet : GetVal → Bool
  | .val v => !pyFalsy v
  | .obj _ => true
  | .objs rs => !rs.isEmpty
  | .parentObj _ => true
  | .dictAttr _ => true
  | .dataDict d => !d.isEmpty

/-- Python `key[0] == '_'` for a non-empty name (the empty-name `IndexError`
is raised separately by the callers that index). -/
def headIsUnderscore (s : String) : Bool :=
  match s.toList with
  | [] => false
  | c :: _ => c = '_'

/-- `CheddarObject.__setattr__`.  In branch order: a name beginning with an
underscore is written straight into `__dict__` (writing the mangled names
`_id`/`_code` changes the identity fields themselves; rebinding
`_data`/`_clean_data` wholesale, or storing a value of an unrepresentable
shape, is outside the model and reported as an unmodelled `TypeError` —
the source never does either on a path any claim touches); `code` is
settable only while `_id` is unset, else an immutable-field
`AttributeError`; `id` is never settable; `CheddarObject` and list values
go into `__dict__` as plain attributes; everything else lands in `_data`
under its snake_case name.  Indexing `key[0]` on an empty name raises
`IndexError`. -/
def cheddarSetattr (r : Record) (key : String) (v : SetVal) : Except PyErr Record :=
  match r with
  | .mk kind id code data cleanData internalData objAttrs =>
    if key = "" then .error .indexError
    else if headIsUnderscore key then
      if key = "_id" then
        match v with
        | .val .none => .ok (.mk kind Option.none code data cleanData internalData objAttrs)
        | .val (.str s) => .ok (.mk kind (Option.some s) code data cleanData internalData objAttrs)
        | _ => .error (.typeError "unmodelled write to _id")
      else if key = "_code" then
        match v with
        | .val .none => .ok (.mk kind id Option.none data cleanData internalData objAttrs)
        | .val w => .ok (.mk kind id (Option.some w) data cleanData internalData objAttrs)
        | _ => .error (.typeError "unmodelled write to _code")
      else if key = "_data" ∨ key = "_clean_data" then
        .error (.typeError "unmodelled rebinding of a data dictionary")
      else
        match v with
        | .val w => .ok (.mk kind id code data cleanData (insertAssoc key w internalData) objAttrs)
        | .obj o => .ok (.mk kind id code data cleanData internalData (insertAssoc key (.one o) objAttrs))
        | .objs os => .ok (.mk kind id code data cleanData internalData (insertAssoc key (.many os) objAttrs))
    else if key = "code" then
      match id with
      | Option.none =>
        match v with
        | .val .none => .ok (.mk kind id Option.none data cleanData internalData objAttrs)
        | .val w => .ok (.mk kind id (Option.some w) data cleanData internalData objAttrs)
        | _ => .error (.typeError "unmodelled write of an object to code")
      | Option.some _ =>
        .error (.attributeError "Once an item has been saved to CheddarGetter, the code is immutable.")
    else if key = "id" then
      .error (.attributeError "The CheddarGetter ID is immutable.")
    else
      match v with
      | .obj o => .ok (.mk kind id code data cleanData internalData (insertAssoc key (.one o) objAttrs))
      | .objs os => .ok (.mk kind id code data cleanData internalData (insertAssoc key (.many os) objAttrs))
      | .val w => .ok (.mk kind id code (insertAssoc (toUnderscores key) w data) cleanData internalData objAttrs)

/-- The non-underscore attribute names of a Python 2 `dict` object: the
first branch of `__getattr__` (`hasattr(self._data, key)`) answers true for
these and returns the bound method. -/
def dictAttrNames : List String :=
  ["clear", "copy", "fromkeys", "get", "has_key", "items", "iteritems",
   "iterkeys", "itervalues", "keys", "pop", "popitem", "setdefault",
   "update", "values", "viewitems", "viewkeys", "viewvalues"]

/-- The dunder attribute names of a Python 2 `dict` object, for the same
branch when the looked-up name starts with underscores. -/
def dictDunderNames : List String :=
  ["__class__", "__cmp__", "__contains__", "__delattr__", "__delitem__",
   "__doc__", "__eq__", "__format__", "__ge__", "__getattribute__",
   "__getitem__", "__gt__", "__hash__", "__init__", "__iter__", "__le__",
   "__len__", "__lt__", "__ne__", "__new__", "__reduce__", "__reduce_ex__",
   "__repr__", "__setattr__", "__setitem__", "__sizeof__", "__str__",
   "__subclasshook__"]

/-- Whether `hasattr(self._data, key)` holds, `self._data` being a dict. -/
def hasattrDict (key : String) : Bool :=
  dictAttrNames.contains key || dictDunderNames.contains key

/-- Normal (pre-`__getattr__`) lookup of a name in a record's instance
`__dict__`: the object-valued attributes, the private scalar attributes, and
the structural fields `_id`, `_code`, `_data`, `_clean_data`.  Class-level
attributes (the methods of `CheddarObject` and its subclasses) are outside
the model; theorems that quantify over attribute names exclude them
explicitly via `classAttrNames`. -/
def instanceLookup (r : Record) (key : String) : Option GetVal :=
  match lookupAssoc key r.objAttrs with
  | Option.some (.one o) => Option.some (.obj o)
  | Option.some (.many os) => Option.some (.objs os)
  | Option.some (.parentRef k) => Option.some (.parentObj k)
  | Option.none =>
    match lookupAssoc key r.internalData with
    | Option.some v => Option.some (.val v)
    | Option.none =>
      if key = "_id" then
        Option.some (.val (match r.id with | Option.none => .none | Option.some s => .str s))
      else if key = "_code" then
        Option.some (.val (match r.code with | Option.none => .none | Option.some v => v))
      else if key = "_data" then Option.some (.dataDict r.data)
      else if key = "_clean_data" then Option.some (.dataDict r.cleanData)
      else Option.none

/-- The non-underscore method names defined on `CheddarObject` and its
subclasses.  Python resolves these (when the instance `__dict__` misses)
before ever calling `__getattr__`; methods themselves are outside the
model, so theorems about attribute access exclude these names. -/
def classAttrNames : List String :=
  ["is_new", "from_xml", "save", "delete", "fetch", "all", "get", "list",
   "search", "validate", "get_item", "add_charge", "get_meta", "set_meta",
   "is_free", "cancel", "add"]

/-- Attribute access on a record: normal instance-`__dict__` lookup first,
then `CheddarObject.__getattr__` in source branch order — the `_data` dict's
own attributes, the special names `id`/`code` read from `_id`/`_code`, a
leading-underscore name re-read from `__dict__` (a `KeyError` when absent,
since the normal lookup already missed), then the `_data` dictionary:
membership is tested with the name as given but the value is read under its
snake_case form (a `KeyError` if only the raw name is a key), else an
`AttributeError`. -/
def cheddarGetattr (r : Record) (key : String) : Except PyErr GetVal :=
  match instanceLookup r key with
  | Option.some g => .ok g
  | Option.none =>
    if hasattrDict key then .ok (.dictAttr key)
    else if key = "id" then
      .ok (.val (match r.id with | Option.none => .none | Option.some s => .str s))
    else if key = "code" then
      .ok (.val (match r.code with | Option.none => .none | Option.some v => v))
    else if key = "" then .error .indexError
    else if headIsUnderscore key then .error .keyError
    else if (lookupAssoc key r.data).isSome then
      match lookupAssoc (toUnderscores key) r.data with
      | Option.some v => .ok (.val v)
      | Option.none => .error .keyError
    else .error (.attributeError ("Key \"" ++ key ++ "\" does not exist."))

/-- `CheddarObject.__contains__`: `id`/`_id` and `code`/`_code` report
whether the corresponding attribute is set; any other key is looked up in
`_data` as given. -/
def containsRec (r : Record) (key : String) : Bool :=
  if key = "id" ∨ key = "_id" then r.id.isSome
  else if key = "code" ∨ key = "_code" then r.code.isSome
  else (lookupAssoc key r.data).isSome

/-- `CheddarObject.is_new`: true when no ID is set. -/
def isNewRec (r : Record) : Bool :=
  !containsRec r "id"

/-- `CheddarObject.__eq__`: equal `_id` attributes that are not `None`. -/
def recordEq (a b : Record) : Bool :=
  (a.id == b.id) && a.id.isSome

/-- `CheddarObject.__ne__`: the negation of `__eq__`. -/
def recordNe (a b : Record) : Bool :=
  !(recordEq a b)

/-- Whether a `_data` entry equals its last-synced counterpart
(`key in self._clean_data and self._clean_data[key] == val`). -/
def isCleanEntry (cleanData : List (String × Value)) (kv : String × Value) : Bool :=
  match lookupAssoc kv.1 cleanData with
  | Option.some w => pyEq w kv.2
  | Option.none => false

/-- `CheddarObject._build_kwargs`: iterate the `_data` dictionary and
collect every entry that differs from its `_clean_data` counterpart.  The
source skips values that are `CheddarObject`s; `_data` never holds one
(both writers of `_data` store scalars only), so the skip is vacuous here. -/
def buildKwargs (r : Record) : List (String × Value) :=
  r.data.foldl
    (fun acc kv => if isCleanEntry r.cleanData kv then acc else insertAssoc kv.1 kv.2 acc) []

/-- `CheddarObject._is_clean`: the diff is empty. -/
def isCleanRec (r : Record) : Bool :=
  (buildKwargs r).isEmpty

/-- The `(parent tag, child tag)` pairs that denote a single nested object
rather than a list (`singles` in `_load_data_from_xml`). -/
def singles : List (String × String) :=
  [("customer", "subscriptions"), ("subscription", "plans"), ("invoice", "transactions")]

/-- The module-level names that capitalizing an XML tag can resolve to via
`getattr(sys.modules[__name__], class_name)`: the `CheddarObject` subclasses
whose names equal their own `str.capitalize()` image.  No other module
attribute (helper imports, `CheddarGetter`, exception classes, ...) is the
capitalization of any string, so the registry is exactly this list. -/
def knownClasses : List String :=
  ["Plan", "Promotion", "Customer", "Subscription", "Item", "Invoice",
   "Charge", "Transaction", "Coupon", "Incentive", "Metadatum"]

/-- The `__dict__` entries `CheddarObject.__init__` installs for a parent
relationship: the attribute named by the lowercased parent class name. -/
def baseNewAttrs (parentKind : Option String) : List (String × Assoc Record) :=
  match parentKind with
  | Option.some pk => [(pyLower pk, Assoc.parentRef pk)]
  | Option.none => []

/-- A freshly constructed `Subscription()`: its `__init__` binds `plan` and
`_clean_plan` to one new empty `Plan()` before the generic constructor runs. -/
def subscriptionNewRec (parentKind : Option String) : Record :=
  let p : Record := .mk "Plan" Option.none Option.none [] [] [] []
  .mk "Subscription" Option.none Option.none [] [] []
    ([("plan", Assoc.one p), ("_clean_plan", Assoc.one p)] ++ baseNewAttrs parentKind)

/-- A freshly constructed `Customer()`: its `__init__` binds `subscription`
to a new `Subscription(parent=self)` and ensures `meta_data` is an empty
list. -/
def customerNewRec (parentKind : Option String) : Record :=
  .mk "Customer" Option.none Option.none [] [] []
    ([("subscription", Assoc.one (subscriptionNewRec (Option.some "Customer")))]
      ++ baseNewAttrs parentKind ++ [("meta_data", Assoc.many [])])

/-- Constructing a `CheddarObject` of a given class with no keyword
arguments (what `from_xml` does): `Customer` and `Subscription` have custom
constructors; every other class starts empty. -/
def newRecord (kind : String) (parentKind : Option String) : Record :=
  if kind = "Customer" then customerNewRec parentKind
  else if kind = "Subscription" then subscriptionNewRec parentKind
  else .mk kind Option.none Option.none [] [] [] (baseNewAttrs parentKind)

/-- Whether a string matches `re.match(r'pat$', s)` where `pat` consumes
exactly the digit characters: in Python `$` also matches just before one
trailing newline. -/
def matchesDigitsAnchored (s : String) : Bool :=
  let cs := s.toList
  (!cs.isEmpty && cs.all Char.isDigit)
    || (cs.getLast? == Option.some '\n' && !cs.dropLast.isEmpty && cs.dropLast.all Char.isDigit)

/-- As `matchesDigitsAnchored` for the character class `[\d.]` (digits and
dots). -/
def matchesDigitsDotsAnchored (s : String) : Bool :=
  let isDigitOrDot : Char → Bool := fun c => c.isDigit || c == '.'
  let cs := s.toList
  (!cs.isEmpty && cs.all isDigitOrDot)
    || (cs.getLast? == Option.some '\n' && !cs.dropLast.isEmpty && cs.dropLast.all isDigitOrDot)

/-- The digit characters of a leaf text after discarding the one trailing
newline `$` may have skipped. -/
def anchoredContent (s : String) : List Char :=
  let cs := s.toList
  if cs.getLast? == Option.some '\n' && !(!cs.isEmpty && cs.all (fun c => c.isDigit || c == '.'))
  then cs.dropLast else
  if cs.getLast? == Option.some '\n' && !cs.dropLast.all (fun c => c.isDigit || c == '.')
  then cs else
  if cs.getLast? == Option.some '\n' then cs.dropLast else cs

/-- Natural number denoted by a list of digit characters. -/
def digitsToNat (cs : List Char) : Nat :=
  cs.foldl (fun n c => n * 10 + (c.toNat - 48)) 0

/-- Python `float()` on a string of digits and dots (the only shape the
loader feeds it): valid exactly when there is a single dot and at least one
digit, else `ValueError`. -/
def pyFloatOfDigitsDots (cs : List Char) : Except PyErr Value :=
  if cs.count '.' = 1 ∧ 1 < cs.length then
    let intPart := cs.takeWhile (fun c => c ≠ '.')
    let fracPart := (cs.dropWhile (fun c => c ≠ '.')).drop 1
    .ok (.float ((digitsToNat intPart : ℚ) + (digitsToNat fracPart : ℚ) / ((10 : ℚ) ^ fracPart.length)))
  else .error (.valueError "could not convert string to float")

/-- Leaf-text conversion in `_load_data_from_xml`: all-digit text becomes an
`int`, digit-and-dot text becomes a `float` (Python's `int`/`float` accept
the one trailing newline the `$` anchor tolerates), anything else stays a
string. -/
def parseLeafText (s : String) : Except PyErr Value :=
  if matchesDigitsAnchored s then .ok (.int (digitsToNat (anchoredContent s)))
  else if matchesDigitsDotsAnchored s then pyFloatOfDigitsDots (anchoredContent s)
  else .ok (.str s)

/-- The leaf write of `_load_data_from_xml`: `self._data[key] = value`, and
the same write to `_clean_data` when loading clean. -/
def writeLeaf (r : Record) (key : String) (v : Value) (clean : Bool) : Record :=
  match r with
  | .mk kind id code data cleanData internalData objAttrs =>
    .mk kind id code (insertAssoc key v data)
      (if clean then insertAssoc key v cleanData else cleanData) internalData objAttrs

/-- Direct rebinding of an object-valued `__dict__` entry, used to model
`getattr(self, key).append(...)` (an in-place list mutation that raises
nothing). -/
def setObjAttrDirect (r : Record) (key : String) (a : Assoc Record) : Record :=
  match r with
  | .mk kind id code data cleanData internalData objAttrs =>
    .mk kind id code data cleanData internalData (insertAssoc key a objAttrs)

mutual

/-- `CheddarObject.from_xml` (with its default `clean=True`): construct the
class named by `kind` and load it from the element.  Nested loads always
pass `parent=self`, modelled by the parent's class name. -/
def fromXml (kind : String) (parentKind : Option String) (x : Xml) : Except PyErr Record :=
  loadDataFromXml x true (newRecord kind parentKind)
termination_by (sizeOf x, 1)

/-- `CheddarObject._load_data_from_xml`: overwrite `_id` and `_code` from
the element's attributes, then process each child element in order. -/
def loadDataFromXml (x : Xml) (clean : Bool) (r : Record) : Except PyErr Record :=
  match x with
  | .elem tag idA codeA _ children =>
    match r with
    | .mk kind _ _ data cleanData internalData objAttrs =>
      loadChildren tag clean
        (.mk kind idA (codeA.map Value.str) data cleanData internalData objAttrs) children
termination_by (sizeOf x, 0)

/-- The child loop of `_load_data_from_xml`. -/
def loadChildren (parentTag : String) (clean : Bool) (r : Record) (cs : List Xml) :
    Except PyErr Record :=
  match cs with
  | [] => .ok r
  | c :: rest =>
    match loadChild parentTag clean r c with
    | .error e => .error e
    | .ok r2 => loadChildren parentTag clean r2 rest
termination_by (sizeOf cs, 0)

/-- One iteration of the child loop.  A child with children of its own is an
object relationship: a `singles` pair instantiates one nested record from
the first grandchild (when its capitalized tag is a known class) and also
binds a `_clean_` reference; otherwise the child becomes a list of nested
records.  A leaf child is converted by `parseLeafText` and written to
`_data` (and `_clean_data` when clean); absent text under a `singles` pair
first installs an empty nested record of the inferred class. -/
def loadChild (parentTag : String) (clean : Bool) (r : Record) (c : Xml) :
    Except PyErr Record :=
  match c with
  | .elem ctag _ _ ctext [] =>
    let key := toUnderscores ctag
    match ctext with
    | Option.some s =>
      match parseLeafText s with
      | .error e => .error e
      | .ok v => .ok (writeLeaf r key v clean)
    | Option.none =>
      if singles.contains (parentTag, ctag) && knownClasses.contains (pyCapitalize ctag) then
        match cheddarSetattr r key (.obj (newRecord (pyCapitalize ctag) (Option.some r.kind))) with
        | .error e => .error e
        | .ok r2 => .ok (writeLeaf r2 key .none clean)
      else .ok (writeLeaf r key .none clean)
  | .elem ctag _ _ _ (g :: gs) =>
    if singles.contains (parentTag, ctag) then
      if knownClasses.contains (pyCapitalize g.tag) then
        match fromXml (pyCapitalize g.tag) (Option.some r.kind) g with
        | .error e => .error e
        | .ok child =>
          match cheddarSetattr r g.tag (.obj child) with
          | .error e => .error e
          | .ok r2 => cheddarSetattr r2 ("_clean_" ++ g.tag) (.obj child)
      else .ok r
    else
      let key := toUnderscores ctag
      match cheddarSetattr r key (.objs []) with
      | .error e => .error e
      | .ok r2 => loadListChildren key r2 [] (g :: gs)
termination_by (sizeOf c, 2)

/-- The many-to-many loop of `_load_data_from_xml`: instantiate one nested
record per grandchild, appending to the list bound at `key` and rebinding
the `_clean_` reference after each append.  An unknown class name — or an
`AttributeError` escaping the nested `from_xml` — hits the `except
AttributeError: break` and ends the loop without failing. -/
def loadListChildren (key : String) (r : Record) (acc : List Record) (gs : List Xml) :
    Except PyErr Record :=
  match gs with
  | [] => .ok r
  | g :: rest =>
    if knownClasses.contains (pyCapitalize g.tag) then
      match fromXml (pyCapitalize g.tag) (Option.some r.kind) g with
      | .error (.attributeError _) => .ok r
      | .error e => .error e
      | .ok child =>
        let acc2 := acc ++ [child]
        let r2 := setObjAttrDirect r key (Assoc.many acc2)
        match cheddarSetattr r2 ("_clean_" ++ key) (.objs acc2) with
        | .error e => .error e
        | .ok r3 => loadListChildren key r3 acc2 rest
    else .ok r
termination_by (sizeOf gs, 0)

end

/-- `Plan.is_free`: `self.setup_charge_amount + self.recurring_charge_amount`
lies strictly between `-0.000001` and `0.000001`.  Both reads go through
attribute access and raise `AttributeError` when the field is missing. -/
def planIsFree (p : Record) : Except PyErr Bool :=
  match cheddarGetattr p "setup_charge_amount" with
  | .error e => .error e
  | .ok g1 =>
    match cheddarGetattr p "recurring_charge_amount" with
    | .error e => .error e
    | .ok g2 =>
      match g1, g2 with
      | .val a, .val b =>
        match pyAdd a b with
        | .error e => .error e
        | .ok total =>
          .ok (pyLtNum total (1 / 1000000 : ℚ) && pyGtNum total (-(1 / 1000000) : ℚ))
      | _, _ => .error (.typeError "unmodelled operand for +")

/-- A saved plan whose two charge fields hold the given float amounts. -/
def planWith (a b : ℚ) : Record :=
  .mk "Plan" (Option.some "plan-id") (Option.some (.str "PLAN"))
    [("setup_charge_amount", .float a), ("recurring_charge_amount", .float b)]
    [("setup_charge_amount", .float a), ("recurring_charge_amount", .float b)] [] []

/-- `Subscription.__getattr__`: `plan_code` (under any spelling that
snake-cases to it) is read from the plan object's `code`; everything else
falls back to the generic attribute access. -/
def subscriptionGetattr (s : Record) (key : String) : Except PyErr GetVal :=
  if toUnderscores key = "plan_code" then
    match cheddarGetattr s "plan" with
    | .error e => .error e
    | .ok (.obj p) =>
      .ok (.val (match p.code with | Option.none => .none | Option.some v => v))
    | .ok _ => .error (.typeError "unmodelled plan attribute shape")
  else cheddarGetattr s key

/-- Python `int()` on a string: strip surrounding whitespace, allow one
sign, require at least one digit and nothing else, else `ValueError`. -/
def pyIntOfString (s : String) : Except PyErr Int :=
  let cs := ((s.toList.dropWhile Char.isWhitespace).reverse.dropWhile Char.isWhitespace).reverse
  let digitsOf : List Char → Except PyErr Int := fun ds =>
    if !ds.isEmpty && ds.all Char.isDigit then .ok (Int.ofNat (digitsToNat ds))
    else .error (.valueError "invalid literal for int() with base 10")
  match cs with
  | '-' :: ds => (digitsOf ds).map Int.neg
  | '+' :: ds => digitsOf ds
  | ds => digitsOf ds

/-- The `cc_expiration` normalization in `Subscription.__setattr__`: insert
a `/` after the month unless position 2 already holds one (an `IndexError`
on strings shorter than 3), then, when the result is 5 characters long,
expand the 2-digit year with the first two digits of the current year.  The
intended next-century pivot first evaluates `int(value[2:])` — but at that
point `value[2]` is always the inserted `/`, so whenever the current year's
last two digits exceed 90 the conversion raises `ValueError` and the pivot
century is never used. -/
def normalizeCcExpiration (nowYear : Nat) (value : String) : Except PyErr String :=
  let cs := value.toList
  match cs.get? 2 with
  | Option.none => .error .indexError
  | Option.some c2 =>
    let v := if c2 ≠ '/' then cs.take 2 ++ '/' :: cs.drop 2 else cs
    if v.length = 5 then
      let century := (toString nowYear).toList.take 2
      if nowYear % 100 > 90 then
        match pyIntOfString (String.mk (v.drop 2)) with
        | .error e => .error e
        | .ok n =>
          let century2 := if n < 10 then (toString (nowYear + 100)).toList.take 2 else century
          .ok (String.mk (v.take 3 ++ century2 ++ v.drop 3))
      else .ok (String.mk (v.take 3 ++ century ++ v.drop 3))
    else .ok (String.mk v)

/-- `Subscription.__setattr__`.  `cc_number` is stripped to its digits;
`cc_expiration` is normalized by `normalizeCcExpiration`; assigning
`plan_code`, or `plan` with anything but a `Plan` instance, resolves through
`Plan.get` — a network fetch, supplied here as the oracle `planGet`
(`Plan.get` returning `None` re-enters the same branch and loops through
further network calls; that divergence is outside the model).  Everything
else falls through to the generic `__setattr__`. -/
def subscriptionSetattr (planGet : Value → Option Record) (nowYear : Nat)
    (s : Record) (key : String) (v : SetVal) : Except PyErr Record :=
  if toUnderscores key = "cc_number" then
    match v with
    | .val (.str t) => cheddarSetattr s key (.val (.str (String.mk (t.toList.filter Char.isDigit))))
    | _ => .error (.typeError "unmodelled cc_number operand")
  else if toUnderscores key = "cc_expiration" then
    match v with
    | .val (.str t) =>
      match normalizeCcExpiration nowYear t with
      | .error e => .error e
      | .ok nv => cheddarSetattr s key (.val (.str nv))
    | _ => .error (.typeError "unmodelled cc_expiration operand")
  else if toUnderscores key == "plan_code"
      || (key == "plan" && (match v with | .obj p => p.kind != "Plan" | _ => true)) then
    match v with
    | .val w =>
      match planGet w with
      | Option.some p => cheddarSetattr s "plan" (.obj p)
      | Option.none => .error (.typeError "unmodelled: Plan.get returned None and the branch re-enters itself")
    | _ => .error (.typeError "unmodelled plan operand")
  else cheddarSetattr s key v

/-- The required credit-card fields of `Subscription.validate`. -/
def requiredCcKeys : List String :=
  ["cc_first_name", "cc_last_name", "cc_number", "cc_expiration", "cc_card_code", "cc_zip"]

/-- The credit-card loop of `Subscription.validate`: each required field
must be present and truthy; an `AttributeError` from the read is caught and
yields `False` (any other exception propagates). -/
def subscriptionCcLoop (s : Record) : List String → Except PyErr Bool
  | [] => .ok true
  | k :: rest =>
    match subscriptionGetattr s k with
    | .error (.attributeError _) => .ok false
    | .error e => .error e
    | .ok g => if pyTruthyGet g then subscriptionCcLoop s rest else .ok false

/-- `Subscription.validate`: returns `True` outright when the plan is saved
(`is_new()` is `False`) and free; otherwise checks the credit-card fields.
This function returns a boolean — it never raises `ValidationError`. -/
def subscriptionValidate (s : Record) : Except PyErr Bool :=
  match cheddarGetattr s "plan" with
  | .error e => .error e
  | .ok (.obj p) =>
    if p.id.isSome then
      match planIsFree p with
      | .error e => .error e
      | .ok true => .ok true
      | .ok false => subscriptionCcLoop s requiredCcKeys
    else subscriptionCcLoop s requiredCcKeys
  | .ok _ => .error (.typeError "unmodelled plan attribute shape")

/-- `Subscription._build_kwargs`: the generic diff, plus `plan_code` set to
the plan's code whenever `self.plan != self._clean_plan` — which, by
`__ne__`, is also true for a fresh unsaved plan compared against itself. -/
def subscriptionBuildKwargs (s : Record) : Except PyErr (List (String × Value)) :=
  let kwargs := buildKwargs s
  match cheddarGetattr s "plan" with
  | .error e => .error e
  | .ok (.obj p) =>
    match cheddarGetattr s "_clean_plan" with
    | .error e => .error e
    | .ok (.obj cp) =>
      if recordNe p cp then
        .ok (insertAssoc "plan_code"
          (match p.code with | Option.none => .none | Option.some v => v) kwargs)
      else .ok kwargs
    | .ok _ => .error (.typeError "unmodelled _clean_plan attribute shape")
  | .ok _ => .error (.typeError "unmodelled plan attribute shape")

/-- The required customer fields of `Customer.validate`. -/
def requiredCustomerKeys : List String :=
  ["first_name", "last_name", "email"]

/-- `Customer.validate`: a falsy code raises `ValidationError`; then
`self.subscription.validate()` is called but its boolean result is
discarded (only an exception escaping it can abort); then each required
key missing from `_data` raises `ValidationError`. -/
def customerValidate (c : Record) : Except PyErr Bool :=
  if pyFalsyOpt c.code then .error (.validationError "No code has been set.")
  else
    match cheddarGetattr c "subscription" with
    | .error e => .error e
    | .ok (.obj s) =>
      match subscriptionValidate s with
      | .error e => .error e
      | .ok _ =>
        match requiredCustomerKeys.find? (fun i => !containsRec c i) with
        | Option.some i => .error (.validationError ("Missing required key: \"" ++ i ++ "\""))
        | Option.none => .ok true
    | .ok _ => .error (.typeError "unmodelled subscription attribute shape")

/-- The code reads `record.code` in several places; `None` prints and
compares as the scalar `None`. -/
def codeVal (r : Record) : Value :=
  match r.code with
  | Option.none => .none
  | Option.some v => v

/-- An HTTP request the client is about to issue: the path, the `code`
keyword and the POST fields.  Save methods are modelled up to the point the
request leaves the process; the network round trip itself is out of scope,
so a save that raises *returns no pending request*. -/
structure PendingRequest where
  path : String
  code : Option Value
  kwargs : List (String × Value)
deriving DecidableEq

/-- The metadata fold in `Customer.save`:
`kwargs['metaData[<name>]'] = datum.value` for each datum. -/
def metaDataFold (ds : List Record) (kwargs : List (String × Value)) :
    Except PyErr (List (String × Value)) :=
  match ds with
  | [] => .ok kwargs
  | d :: rest =>
    match cheddarGetattr d "name" with
    | .error e => .error e
    | .ok (.val nameV) =>
      match cheddarGetattr d "value" with
      | .error e => .error e
      | .ok (.val valueV) =>
        metaDataFold rest (insertAssoc ("metaData[" ++ pyStr nameV ++ "]") valueV kwargs)
      | .ok _ => .error (.typeError "unmodelled metadata value shape")
    | .ok _ => .error (.typeError "unmodelled metadata name shape")

/-- The credit-card fields forwarded for a new customer. -/
def ccInfoKeys : List String :=
  ["cc_first_name", "cc_last_name", "cc_number", "cc_expiration",
   "cc_card_code", "cc_zip", "cc_address"]

/-- The credit-card forwarding loop of `Customer.save` for a new customer:
fields present in the subscription are copied under `subscription[...]`
keys. -/
def ccInfoFold (s : Record) (ks : List String) (kwargs : List (String × Value)) :
    Except PyErr (List (String × Value)) :=
  match ks with
  | [] => .ok kwargs
  | k :: rest =>
    if containsRec s k then
      match subscriptionGetattr s k with
      | .error e => .error e
      | .ok (.val w) => ccInfoFold s rest (insertAssoc ("subscription[" ++ k ++ "]") w kwargs)
      | .ok _ => .error (.typeError "unmodelled credit-card value shape")
    else ccInfoFold s rest kwargs

/-- The `for key, val in sub_kwargs:` loop of `Customer.save`.  Iterating a
dictionary yields its *keys*, so each key string is itself unpacked into
`key, val`: that succeeds only for a 2-character key (splitting it into two
1-character strings) and raises `ValueError` for any other length.  (The
interpreter's message differs between too-short and too-long keys; the
model uses one message for both.) -/
def unpackSubKwargs (ks : List String) (kwargs : List (String × Value)) :
    Except PyErr (List (String × Value)) :=
  match ks with
  | [] => .ok kwargs
  | k :: rest =>
    if k.length = 2 then
      unpackSubKwargs rest (insertAssoc ("subscription[" ++ k.take 1 ++ "]") (.str (k.drop 1)) kwargs)
    else .error (.valueError "unpack")

/-- The new-customer branch of `Customer.save`: add the subscription's plan
code, the coupon code when the attribute exists (`hasattr` swallows any
error), and the available credit-card fields; the request goes to
`/customers/new/` with the customer's code as the `code` keyword. -/
def customerSaveNew (c : Record) (kwargs : List (String × Value)) :
    Except PyErr PendingRequest :=
  match cheddarGetattr c "subscription" with
  | .error e => .error e
  | .ok (.obj s) =>
    match cheddarGetattr s "plan" with
    | .error e => .error e
    | .ok (.obj p) =>
      let kwargs1 := insertAssoc "subscription[plan_code]" (codeVal p) kwargs
      let kwargs2res : Except PyErr (List (String × Value)) :=
        match subscriptionGetattr s "coupon_code" with
        | .ok (.val w) => .ok (insertAssoc "subscription[coupon_code]" w kwargs1)
        | .ok _ => .error (.typeError "unmodelled coupon_code shape")
        | .error _ => .ok kwargs1
      match kwargs2res with
      | .error e => .error e
      | .ok kwargs2 =>
        match ccInfoFold s ccInfoKeys kwargs2 with
        | .error e => .error e
        | .ok kwargs3 => .ok ⟨"/customers/new/", c.code, kwargs3⟩
    | .ok _ => .error (.typeError "unmodelled plan attribute shape")
  | .ok _ => .error (.typeError "unmodelled subscription attribute shape")

/-- The existing-customer branch of `Customer.save`: when the subscription
is dirty (`_is_clean()` false, i.e. `Subscription._build_kwargs()` is
non-empty) its diff is folded in through the faulty key/value unpacking of
`unpackSubKwargs`; the request goes to `/customers/edit/`. -/
def customerSaveEdit (c : Record) (kwargs : List (String × Value)) :
    Except PyErr PendingRequest :=
  match cheddarGetattr c "subscription" with
  | .error e => .error e
  | .ok (.obj s) =>
    match subscriptionBuildKwargs s with
    | .error e => .error e
    | .ok sk =>
      if sk.isEmpty then .ok ⟨"/customers/edit/", c.code, kwargs⟩
      else
        match unpackSubKwargs (keysOf sk) kwargs with
        | .error e => .error e
        | .ok kwargs2 => .ok ⟨"/customers/edit/", c.code, kwargs2⟩
  | .ok _ => .error (.typeError "unmodelled subscription attribute shape")

/-- `Customer.save` up to the outgoing request: validate, compute the diff,
fold the metadata (when `self.meta_data` is truthy), then take the new- or
existing-customer branch on `is_new()`.  The reload of the response that
follows the request in the source is outside the model. -/
def customerSave (c : Record) : Except PyErr PendingRequest :=
  match customerValidate c with
  | .error e => .error e
  | .ok _ =>
    let kwargs := buildKwargs c
    match cheddarGetattr c "meta_data" with
    | .error e => .error e
    | .ok g =>
      let mdRes : Except PyErr (List (String × Value)) :=
        if pyTruthyGet g then
          match g with
          | .objs ds => metaDataFold ds kwargs
          | _ => .error (.typeError "unmodelled meta_data shape")
        else .ok kwargs
      match mdRes with
      | .error e => .error e
      | .ok kwargs2 =>
        if isNewRec c then customerSaveNew c kwargs2 else customerSaveEdit c kwargs2

/-- Python `str.strip('/')`: remove every leading and trailing slash. -/
def stripSlashes (s : String) : String :=
  String.mk (((s.toList.dropWhile (fun c => c = '/')).reverse.dropWhile (fun c => c = '/')).reverse)

/-- Python `s[-3:]`: the last three characters (the whole string when
shorter). -/
def lastThree (s : String) : String :=
  String.mk (((s.toList.reverse).take 3).reverse)

/-- A lowercase hexadecimal digit. -/
def isHexLower (c : Char) : Bool :=
  c.isDigit || c = 'a' || c = 'b' || c = 'c' || c = 'd' || c = 'e' || c = 'f'

/-- The canonical 8-4-4-4-12 lowercase-hex UUID shape, i.e. the language of
the regex body `[0-9a-f]{8}-[0-9a-f]{4}-[0-9a-f]{4}-[0-9a-f]{4}-[0-9a-f]{12}`. -/
def isUuidCore (s : String) : Bool :=
  let cs := s.toList
  cs.length = 36 && (List.range 36).all (fun i =>
    if i = 8 ∨ i = 13 ∨ i = 18 ∨ i = 23 then cs.getD i ' ' = '-'
    else isHexLower (cs.getD i ' '))

/-- `re.match(r'^<uuid>$', s)`: in Python the `$` anchor also matches just
before one trailing newline, so a UUID followed by `"\n"` matches too. -/
def reMatchesUuid (s : String) : Bool :=
  isUuidCore s
    || (s.toList.getLast? == Option.some '\n' && isUuidCore (String.mk s.toList.dropLast))

/-- The process-wide transport configuration (`CheddarGetter.product_code`;
credentials and timeout play no part in any claim). -/
structure CGConfig where
  productCode : Option String

/-- URL construction and identifier routing of `CheddarGetter.request`
(through the `productCode` append): returns the URL together with the
`code` POST field when the identifier is demoted to the body.  The
creation-endpoint test is `path.strip('/')[-3:] == 'new'`; a UUID-shaped
identifier goes into an `/id/` segment (`ValueError` on a creation
endpoint), any other identifier into a `/code/` segment (the POST body on a
creation endpoint); a missing or falsy product code raises
`AttributeError` when `passProductCode` is set. -/
def requestUrl (cfg : CGConfig) (path : String) (code : Option String)
    (itemCode : Option String) (productCode : Option String) (passProductCode : Bool) :
    Except PyErr (String × Option String) :=
  let base := "https://cheddargetter.com/xml/" ++ stripSlashes path
  let routed : Except PyErr (String × Option String) :=
    match code with
    | Option.none => .ok (base, Option.none)
    | Option.some c =>
      let addToUrl := lastThree (stripSlashes path) ≠ "new"
      if reMatchesUuid c then
        if addToUrl then .ok (base ++ "/id/" ++ c, Option.none)
        else .error (.valueError "Cannot send an ID for an object creation request.")
      else
        if addToUrl then .ok (base ++ "/code/" ++ c, Option.none)
        else .ok (base, Option.some c)
  match routed with
  | .error e => .error e
  | .ok (url1, bodyCode) =>
    let url2 := match itemCode with
      | Option.some ic => url1 ++ "/itemCode/" ++ ic
      | Option.none => url1
    if passProductCode then
      let pc := match productCode with
        | Option.some p => Option.some p
        | Option.none => cfg.productCode
      match pc with
      | Option.some p =>
        if p = "" then .error (.attributeError "You must set CheddarGetter.product_code")
        else .ok (url2 ++ "/productCode/" ++ p ++ "/", bodyCode)
      | Option.none => .error (.attributeError "You must set CheddarGetter.product_code")
    else .ok (url2, bodyCode)

/-- The typed transport failures of `pycheddar/exceptions.py` that the
status handling can raise (all subclasses of `MouseTrap`). -/
inductive HttpExcKind where
  | badRequest : HttpExcKind
  | authorizationRequired : HttpExcKind
  | forbidden : HttpExcKind
  | notFound : HttpExcKind
  | gatewayFailure : HttpExcKind
  | gatewayConnectionError : HttpExcKind
  | unexpectedResponse : HttpExcKind
deriving DecidableEq, Repr

/-- An HTTP response as the status handling sees it: the status code and
the result of `fromstring(response.text)` — `none` when the body is not
well-formed XML, otherwise the parsed root element. -/
structure HttpResponse where
  status : Nat
  parsed : Option Xml

/-- A raised transport failure: its class, its message argument (`None` is
possible: a parsed error body whose root has no text), and whether the
`response=` keyword was passed. -/
structure RaisedFailure where
  kind : HttpExcKind
  msg : Option String
  withResponse : Bool
deriving DecidableEq, Repr

/-- The `exception_map.get(status_code, UnexpectedResponse)` dictionary
lookup. -/
def exceptionMapGet (status : Nat) : HttpExcKind :=
  if status = 400 then .badRequest
  else if status = 401 then .authorizationRequired
  else if status = 403 then .forbidden
  else if status = 404 then .notFound
  else if status = 412 then .badRequest
  else if status = 422 then .gatewayFailure
  else if status = 502 then .gatewayConnectionError
  else .unexpectedResponse

/-- `requests.Response.raise_for_status` raises `HTTPError` exactly for the
client-error and server-error ranges 400–599; informational and redirect
statuses pass through silently. -/
def raisesForStatus (status : Nat) : Bool :=
  decide (400 ≤ status ∧ status < 600)

/-- The response handling of `CheddarGetter.request` after the POST
returns: on an `HTTPError` the message is the parsed error body's root text
(the empty string when the body is not XML) and the typed failure is chosen
by `exceptionMapGet`, carrying the response; otherwise the body must parse
as XML (else `UnexpectedResponse` with a fixed message and the response)
and must not have the root tag `error` (else `UnexpectedResponse` without
the response); the parsed root is returned. -/
def handleResponse (resp : HttpResponse) : Except RaisedFailure Xml :=
  if raisesForStatus resp.status then
    let errorMsg : Option String :=
      match resp.parsed with
      | Option.some x => x.text
      | Option.none => Option.some ""
    .error ⟨exceptionMapGet resp.status, errorMsg, true⟩
  else
    match resp.parsed with
    | Option.none =>
      .error ⟨.unexpectedResponse,
        Option.some "The server sent back something that wasn't valid XML.", true⟩
    | Option.some content =>
      if content.tag = "error" then .error ⟨.unexpectedResponse, content.text, false⟩
      else .ok content

@[simp] theorem Record.kind_mk (k : String) (i : Option String) (c : Option Value)
    (d cd idt : List (String × Value)) (oa : List (String × Assoc Record)) :
    (Record.mk k i c d cd idt oa).kind = k := rfl

@[simp] theorem Record.id_mk (k : String) (i : Option String) (c : Option Value)
    (d cd idt : List (String × Value)) (oa : List (String × Assoc Record)) :
    (Record.mk k i c d cd idt oa).id = i := rfl

@[simp] theorem Record.code_mk (k : String) (i : Option String) (c : Option Value)
    (d cd idt : List (String × Value)) (oa : List (String × Assoc Record)) :
    (Record.mk k i c d cd idt oa).code = c := rfl

@[simp] theorem Record.data_mk (k : String) (i : Option String) (c : Option Value)
    (d cd idt : List (String × Value)) (oa : List (String × Assoc Record)) :
    (Record.mk k i c d cd idt oa).data = d := rfl

@[simp] theorem Record.cleanData_mk (k : String) (i : Option String) (c : Option Value)
    (d cd idt : List (String × Value)) (oa : List (String × Assoc Record)) :
    (Record.mk k i c d cd idt oa).cleanData = cd := rfl

@[simp] theorem Record.internalData_mk (k : String) (i : Option String) (c : Option Value)
    (d cd idt : List (String × Value)) (oa : List (String × Assoc Record)) :
    (Record.mk k i c d cd idt oa).internalData = idt := rfl

@[simp] theorem Record.objAttrs_mk (k : String) (i : Option String) (c : Option Value)
    (d cd idt : List (String × Value)) (oa : List (String × Assoc Record)) :
    (Record.mk k i c d cd idt oa).objAttrs = oa := rfl

theorem pyEq_refl (v : Value) : pyEq v v = true := by
  cases v <;> simp [pyEq]

theorem lookupAssoc_insertAssoc_self {α : Type} (k : String) (v : α) (l : List (String × α)) :
    lookupAssoc k (insertAssoc k v l) = Option.some v := by
  induction l with
  | nil => simp [insertAssoc, lookupAssoc]
  | cons hd tl ih =>
    obtain ⟨k0, w⟩ := hd
    by_cases hk : k0 = k
    · subst hk; simp [insertAssoc, lookupAssoc]
    · simp [insertAssoc, lookupAssoc, hk, ih]

theorem lookupAssoc_insertAssoc_ne {α : Type} (k k' : String) (v : α) (l : List (String × α))
    (h : k' ≠ k) : lookupAssoc k' (insertAssoc k v l) = lookupAssoc k' l := by
  have h' : k ≠ k' := Ne.symm h
  induction l with
  | nil => simp [insertAssoc, lookupAssoc, h']
  | cons hd tl ih =>
    obtain ⟨k0, w⟩ := hd
    by_cases hk : k0 = k
    · subst hk
      simp [insertAssoc, lookupAssoc, h']
    · simp only [insertAssoc, if_neg hk, lookupAssoc, ih]

theorem lookupAssoc_eq_none_iff {α : Type} (k : String) (l : List (String × α)) :
    lookupAssoc k l = Option.none ↔ k ∉ keysOf l := by
  induction l with
  | nil => simp [lookupAssoc, keysOf]
  | cons hd tl ih =>
    obtain ⟨k0, w⟩ := hd
    by_cases hk : k0 = k
    · subst hk; simp [lookupAssoc, keysOf]
    · simp [lookupAssoc, keysOf, hk, ih, Ne.symm hk]

theorem keysOf_insertAssoc {α : Type} (k : String) (v : α) (l : List (String × α)) :
    keysOf (insertAssoc k v l)
      = if k ∈ keysOf l then keysOf l else keysOf l ++ [k] := by
  induction l with
  | nil => simp [insertAssoc, keysOf]
  | cons hd tl ih =>
    obtain ⟨k0, w⟩ := hd
    by_cases hk : k0 = k
    · subst hk; simp [insertAssoc, keysOf]
    · have hk' : k ≠ k0 := Ne.symm hk
      simp only [keysOf] at ih ⊢
      by_cases hmem : k ∈ List.map Prod.fst tl
      · simp [insertAssoc, if_neg hk, ih, hmem, hk']
      · simp [insertAssoc, if_neg hk, ih, hmem, hk']

theorem keysOf_insertAssoc_nodup {α : Type} (k : String) (v : α) (l : List (String × α))
    (h : (keysOf l).Nodup) : (keysOf (insertAssoc k v l)).Nodup := by
  rw [keysOf_insertAssoc]
  by_cases hmem : k ∈ keysOf l
  · simpa [hmem] using h
  · simpa [hmem, List.nodup_append] using h

theorem insertAssoc_of_not_mem {α : Type} (k : String) (v : α) (l : List (String × α))
    (h : k ∉ keysOf l) : insertAssoc k v l = l ++ [(k, v)] := by
  induction l with
  | nil => simp [insertAssoc]
  | cons hd tl ih =>
    obtain ⟨k0, w⟩ := hd
    simp only [keysOf, List.map_cons, List.mem_cons] at h
    push_neg at h
    have hk : k0 ≠ k := Ne.symm h.1
    simp [insertAssoc, hk, ih h.2]

theorem lookupAssoc_eq_some_of_mem {α : Type} (k : String) (v : α) (l : List (String × α))
    (hnd : (keysOf l).Nodup) (hmem : (k, v) ∈ l) : lookupAssoc k l = Option.some v := by
  induction l with
  | nil => cases hmem
  | cons hd tl ih =>
    obtain ⟨k0, w⟩ := hd
    simp only [keysOf, List.map_cons, List.nodup_cons] at hnd
    rcases List.mem_cons.mp hmem with heq | htl
    · cases heq
      simp [lookupAssoc]
    · have hk0 : k0 ≠ k := by
        intro hh
        subst hh
        exact hnd.1 (List.mem_map.mpr ⟨(k0, v), htl, rfl⟩)
      simp [lookupAssoc, hk0, ih hnd.2 htl]

theorem lookupAssoc_append {α : Type} (k : String) (l1 l2 : List (String × α)) :
    lookupAssoc k (l1 ++ l2)
      = match lookupAssoc k l1 with
        | Option.some v => Option.some v
        | Option.none => lookupAssoc k l2 := by
  induction l1 with
  | nil => simp [lookupAssoc]
  | cons hd tl ih =>
    obtain ⟨k0, w⟩ := hd
    by_cases hk : k0 = k
    · simp [lookupAssoc, hk]
    · simp [lookupAssoc, hk, ih]

/-- The fold of `_build_kwargs`, spelled out so it can be characterized. -/
theorem buildKwargs_fold_eq (clean : List (String × Value)) :
    ∀ (l acc : List (String × Value)), (keysOf l).Nodup →
    (∀ k, k ∈ keysOf l → lookupAssoc k acc = Option.none) →
    l.foldl (fun acc kv => if isCleanEntry clean kv then acc else insertAssoc kv.1 kv.2 acc) acc
      = acc ++ l.filter (fun kv => !isCleanEntry clean kv) := by
  intro l
  induction l with
  | nil => intro acc _ _; simp
  | cons hd tl ih =>
    intro acc hnd hfresh
    obtain ⟨k, v⟩ := hd
    simp only [keysOf, List.map_cons, List.nodup_cons] at hnd
    by_cases hclean : isCleanEntry clean (k, v) = true
    · have step : List.foldl
          (fun acc kv => if isCleanEntry clean kv then acc else insertAssoc kv.1 kv.2 acc)
          acc ((k, v) :: tl)
        = List.foldl
          (fun acc kv => if isCleanEntry clean kv then acc else insertAssoc kv.1 kv.2 acc)
          acc tl := by
        simp [hclean]
      rw [step, ih acc hnd.2 (fun k2 hk2 => hfresh k2 (List.mem_cons_of_mem _ hk2))]
      simp [List.filter_cons, hclean]
    · have hkfresh : lookupAssoc k acc = Option.none :=
        hfresh k (List.mem_cons_self _ _)
      have hins : insertAssoc k v acc = acc ++ [(k, v)] :=
        insertAssoc_of_not_mem k v acc ((lookupAssoc_eq_none_iff k acc).mp hkfresh)
      have step : List.foldl
          (fun acc kv => if isCleanEntry clean kv then acc else insertAssoc kv.1 kv.2 acc)
          acc ((k, v) :: tl)
        = List.foldl
          (fun acc kv => if isCleanEntry clean kv then acc else insertAssoc kv.1 kv.2 acc)
          (acc ++ [(k, v)]) tl := by
        simp [hclean, hins]
      rw [step, ih (acc ++ [(k, v)]) hnd.2 ?_]
      · simp [List.filter_cons, hclean]
      · intro k2 hk2
        rw [lookupAssoc_append]
        have hne : k2 ≠ k := by
          intro hh
          subst hh
          exact hnd.1 hk2
        simp [hfresh k2 (List.mem_cons_of_mem _ hk2), lookupAssoc, hne, Ne.symm hne]

/-- `_build_kwargs` is the dirty-entry filter of `_data` whenever the data
keys are distinct (which every record reachable through the modelled
operations satisfies). -/
theorem buildKwargs_eq_filter (r : Record) (h : (keysOf r.data).Nodup) :
    buildKwargs r = r.data.filter (fun kv => !isCleanEntry r.cleanData kv) := by
  have := buildKwargs_fold_eq r.cleanData r.data [] h (fun k _ => by simp [lookupAssoc])
  simpa [buildKwargs] using this

/-- The invariant maintained by a clean load: `_data` and `_clean_data` are
identical and the data keys are distinct. -/
def InvDC (r : Record) : Prop :=
  r.data = r.cleanData ∧ (keysOf r.data).Nodup

theorem writeLeaf_invDC (r : Record) (key : String) (v : Value) (h : InvDC r) :
    InvDC (writeLeaf r key v true) := by
  obtain ⟨k, i, c, d, cd, idt, oa⟩ := r
  obtain ⟨heq, hnd⟩ := h
  simp only [Record.data_mk, Record.cleanData_mk] at heq hnd
  subst heq
  exact ⟨by simp [writeLeaf], by
    simpa [writeLeaf] using keysOf_insertAssoc_nodup key v d hnd⟩

theorem cheddarSetattr_nonval_fields (r : Record) (key : String) (v : SetVal) (r2 : Record)
    (h : cheddarSetattr r key v = .ok r2) (hv : ∀ w, v ≠ SetVal.val w) :
    r2.data = r.data ∧ r2.cleanData = r.cleanData := by
  obtain ⟨k, i, c, d, cd, idt, oa⟩ := r
  cases v with
  | val w => exact absurd rfl (hv w)
  | obj o =>
    simp only [cheddarSetattr.eq_def] at h
    repeat' split at h
    all_goals first
      | exact Except.noConfusion h
      | (injection h with h2; subst h2; exact ⟨rfl, rfl⟩)
  | objs os =>
    simp only [cheddarSetattr.eq_def] at h
    repeat' split at h
    all_goals first
      | exact Except.noConfusion h
      | (injection h with h2; subst h2; exact ⟨rfl, rfl⟩)

theorem setObjAttrDirect_fields (r : Record) (key : String) (a : Assoc Record) :
    (setObjAttrDirect r key a).data = r.data
      ∧ (setObjAttrDirect r key a).cleanData = r.cleanData := by
  obtain ⟨k, i, c, d, cd, idt, oa⟩ := r
  exact ⟨rfl, rfl⟩

theorem newRecord_invDC (kind : String) (pk : Option String) : InvDC (newRecord kind pk) := by
  unfold newRecord
  split
  · exact ⟨by simp [customerNewRec], by simp [customerNewRec, keysOf]⟩
  · split
    · exact ⟨by simp [subscriptionNewRec], by simp [subscriptionNewRec, keysOf]⟩
    · exact ⟨rfl, by simp [keysOf]⟩

theorem loadListChildren_invDC (gs : List Xml) :
    ∀ (key : String) (r : Record) (acc : List Record) (r2 : Record), InvDC r →
    loadListChildren key r acc gs = .ok r2 → InvDC r2 := by
  induction gs with
  | nil =>
    intro key r acc r2 hinv h
    simp only [loadListChildren] at h
    cases h
    exact hinv
  | cons g rest ih =>
    intro key r acc r2 hinv h
    simp only [loadListChildren] at h
    by_cases hknown : knownClasses.contains (pyCapitalize g.tag)
    · rw [if_pos hknown] at h
      cases hfx : fromXml (pyCapitalize g.tag) (Option.some r.kind) g with
      | error e =>
        cases e <;> simp only [hfx] at h <;>
          first
            | (cases h; exact hinv)
            | exact Except.noConfusion h
      | ok child =>
        simp only [hfx] at h
        cases hset : cheddarSetattr (setObjAttrDirect r key (Assoc.many (acc ++ [child])))
            ("_clean_" ++ key) (.objs (acc ++ [child])) with
        | error e =>
          simp only [hset] at h
          exact Except.noConfusion h
        | ok r3 =>
          simp only [hset] at h
          have hfields := cheddarSetattr_nonval_fields _ _ _ _ hset (fun w => by simp)
          have hdirect := setObjAttrDirect_fields r key (Assoc.many (acc ++ [child]))
          have hinv3 : InvDC r3 := by
            constructor
            · rw [hfields.1, hfields.2, hdirect.1, hdirect.2]
              exact hinv.1
            · rw [hfields.1, hdirect.1]
              exact hinv.2
          exact ih key r3 (acc ++ [child]) r2 hinv3 h
    · rw [if_neg hknown] at h
      cases h
      exact hinv

theorem loadChild_invDC (parentTag : String) (r : Record) (c : Xml) (r2 : Record)
    (hinv : InvDC r) (h : loadChild parentTag true r c = .ok r2) : InvDC r2 := by
  obtain ⟨ctag, ia, ca, ctext, cchildren⟩ := c
  cases cchildren with
  | nil =>
    cases ctext with
    | some s =>
      cases hp : parseLeafText s with
      | error e =>
        simp only [loadChild, hp] at h
        exact Except.noConfusion h
      | ok v =>
        simp only [loadChild, hp] at h
        cases h
        exact writeLeaf_invDC _ _ _ hinv
    | none =>
      simp only [loadChild] at h
      split at h
      · cases hset : cheddarSetattr r (toUnderscores ctag)
            (.obj (newRecord (pyCapitalize ctag) (Option.some r.kind))) with
        | error e =>
          simp only [hset] at h
          exact Except.noConfusion h
        | ok rmid =>
          simp only [hset] at h
          cases h
          have hfields := cheddarSetattr_nonval_fields _ _ _ _ hset (fun w => by simp)
          exact writeLeaf_invDC _ _ _ ⟨by rw [hfields.1, hfields.2]; exact hinv.1,
            by rw [hfields.1]; exact hinv.2⟩
      · cases h
        exact writeLeaf_invDC _ _ _ hinv
  | cons g gs =>
    simp only [loadChild] at h
    by_cases hsingle : singles.contains (parentTag, ctag)
    · rw [if_pos hsingle] at h
      by_cases hknown : knownClasses.contains (pyCapitalize g.tag)
      · rw [if_pos hknown] at h
        cases hfx : fromXml (pyCapitalize g.tag) (Option.some r.kind) g with
        | error e =>
          simp only [hfx] at h
          exact Except.noConfusion h
        | ok child =>
          simp only [hfx] at h
          cases hset : cheddarSetattr r g.tag (.obj child) with
          | error e =>
            simp only [hset] at h
            exact Except.noConfusion h
          | ok rmid =>
            simp only [hset] at h
            have hf1 := cheddarSetattr_nonval_fields _ _ _ _ hset (fun w => by simp)
            have hf2 := cheddarSetattr_nonval_fields _ _ _ _ h (fun w => by simp)
            exact ⟨by rw [hf2.1, hf2.2, hf1.1, hf1.2]; exact hinv.1,
              by rw [hf2.1, hf1.1]; exact hinv.2⟩
      · rw [if_neg hknown] at h
        cases h
        exact hinv
    · rw [if_neg hsingle] at h
      cases hset : cheddarSetattr r (toUnderscores ctag) (.objs []) with
      | error e =>
        simp only [hset] at h
        exact Except.noConfusion h
      | ok rmid =>
        simp only [hset] at h
        have hf1 := cheddarSetattr_nonval_fields _ _ _ _ hset (fun w => by simp)
        exact loadListChildren_invDC (g :: gs) _ rmid [] r2
          ⟨by rw [hf1.1, hf1.2]; exact hinv.1, by rw [hf1.1]; exact hinv.2⟩ h

theorem loadChildren_invDC (cs : List Xml) :
    ∀ (parentTag : String) (r : Record) (r2 : Record), InvDC r →
    loadChildren parentTag true r cs = .ok r2 → InvDC r2 := by
  induction cs with
  | nil =>
    intro parentTag r r2 hinv h
    simp only [loadChildren] at h
    cases h
    exact hinv
  | cons c rest ih =>
    intro parentTag r r2 hinv h
    simp only [loadChildren] at h
    cases hc : loadChild parentTag true r c with
    | error e =>
      rw [hc] at h
      exact Except.noConfusion h
    | ok rmid =>
      rw [hc] at h
      exact ih parentTag rmid r2 (loadChild_invDC parentTag r c rmid hinv hc) h

theorem loadDataFromXml_invDC (x : Xml) (r : Record) (r2 : Record)
    (hinv : InvDC r) (h : loadDataFromXml x true r = .ok r2) : InvDC r2 := by
  obtain ⟨tag, ia, ca, t, children⟩ := x
  obtain ⟨k, i, c, d, cd, idt, oa⟩ := r
  simp only [loadDataFromXml] at h
  exact loadChildren_invDC children tag (.mk k ia (ca.map Value.str) d cd idt oa) r2
    ⟨hinv.1, hinv.2⟩ h

theorem fromXml_invDC (kind : String) (pk : Option String) (x : Xml) (r : Record)
    (h : fromXml kind pk x = .ok r) : InvDC r := by
  simp only [fromXml] at h
  exact loadDataFromXml_invDC x (newRecord kind pk) r (newRecord_invDC kind pk) h

theorem filter_dirty_insertAssoc (clean : List (String × Value)) (l : List (String × Value))
    (k : String) (v : Value)
    (hall : ∀ kv ∈ l, isCleanEntry clean kv = true)
    (hdirty : isCleanEntry clean (k, v) = false)
    (hnd : (keysOf l).Nodup) :
    (insertAssoc k v l).filter (fun kv => !isCleanEntry clean kv) = [(k, v)] := by
  induction l with
  | nil => simp [insertAssoc, List.filter, hdirty]
  | cons hd tl ih =>
    obtain ⟨k0, w⟩ := hd
    simp only [keysOf, List.map_cons, List.nodup_cons] at hnd
    by_cases hk : k0 = k
    · subst hk
      simp only [insertAssoc, if_pos rfl, List.filter_cons, hdirty]
      have htl : tl.filter (fun kv => !isCleanEntry clean kv) = [] := by
        rw [List.filter_eq_nil_iff]
        intro kv hkv
        simp [hall kv (List.mem_cons_of_mem _ hkv)]
      simp [htl, hdirty]
    · have hclean0 : isCleanEntry clean (k0, w) = true :=
        hall (k0, w) (List.mem_cons_self _ _)
      simp only [insertAssoc, if_neg hk, List.filter_cons, hclean0]
      have := ih (fun kv hkv => hall kv (List.mem_cons_of_mem _ hkv)) hnd.2
      simpa [hclean0] using this

theorem cheddarSetattr_val_normal (r : Record) (key : String) (v : Value) (r2 : Record)
    (h1 : key ≠ "") (h2 : headIsUnderscore key = false) (h3 : key ≠ "code") (h4 : key ≠ "id")
    (h : cheddarSetattr r key (.val v) = .ok r2) :
    r2.data = insertAssoc (toUnderscores key) v r.data ∧ r2.cleanData = r.cleanData := by
  obtain ⟨k, i, c, d, cd, idt, oa⟩ := r
  simp only [cheddarSetattr.eq_def] at h
  rw [if_neg h1, if_neg (by simp [h2]), if_neg h3, if_neg h4] at h
  injection h with h5
  subst h5
  exact ⟨rfl, rfl⟩

/-- C1: after a clean hydration the diff is empty, and mutating a single
field (through generic attribute assignment, with a value that differs from
its last-synced value) makes the diff exactly that one field. -/
theorem c1_clean_load_and_single_mutation (kind : String) (pk : Option String) (x : Xml)
    (r : Record) (hload : fromXml kind pk x = .ok r) :
    buildKwargs r = []
    ∧ ∀ (key : String) (v : Value) (r2 : Record),
        key ≠ "" → headIsUnderscore key = false → key ≠ "code" → key ≠ "id" →
        cheddarSetattr r key (.val v) = .ok r2 →
        (∀ w, lookupAssoc (toUnderscores key) r.cleanData = Option.some w → pyEq w v = false) →
        buildKwargs r2 = [(toUnderscores key, v)] := by
  have hinv := fromXml_invDC kind pk x r hload
  have hallclean : ∀ kv ∈ r.data, isCleanEntry r.cleanData kv = true := by
    intro kv hkv
    obtain ⟨k, w⟩ := kv
    have hl : lookupAssoc k r.data = Option.some w :=
      lookupAssoc_eq_some_of_mem k w r.data hinv.2 hkv
    simp only [isCleanEntry, ← hinv.1, hl, pyEq_refl]
  constructor
  · rw [buildKwargs_eq_filter r hinv.2, List.filter_eq_nil_iff]
    intro kv hkv
    simp [hallclean kv hkv]
  · intro key v r2 h1 h2 h3 h4 hset hdirtyhyp
    have hfields := cheddarSetattr_val_normal r key v r2 h1 h2 h3 h4 hset
    have hnd2 : (keysOf r2.data).Nodup := by
      rw [hfields.1]
      exact keysOf_insertAssoc_nodup _ _ _ hinv.2
    have hdirty : isCleanEntry r.cleanData (toUnderscores key, v) = false := by
      unfold isCleanEntry
      cases hl : lookupAssoc (toUnderscores key) r.cleanData with
      | none => simp
      | some w => simpa using hdirtyhyp w hl
    rw [buildKwargs_eq_filter r2 hnd2, hfields.1, hfields.2]
    exact filter_dirty_insertAssoc r.cleanData r.data (toUnderscores key) v
      hallclean hdirty hinv.2

/-- A sample server response for the C1 witness. -/
def c1WitnessXml : Xml :=
  .elem "plan" (Option.some "11112222") (Option.some "BASIC") Option.none
    [.elem "name" Option.none Option.none (Option.some "Basic Plan") [],
     .elem "billingFrequencyQuantity" Option.none Option.none (Option.some "12") []]

/-- The record `c1WitnessXml` hydrates to. -/
def c1LoadedRec : Record :=
  .mk "Plan" (Option.some "11112222") (Option.some (.str "BASIC"))
    [("name", .str "Basic Plan"), ("billing_frequency_quantity", .int 12)]
    [("name", .str "Basic Plan"), ("billing_frequency_quantity", .int 12)] [] []

/-- The record after mutating `name`. -/
def c1MutatedRec : Record :=
  .mk "Plan" (Option.some "11112222") (Option.some (.str "BASIC"))
    [("name", .str "Pro"), ("billing_frequency_quantity", .int 12)]
    [("name", .str "Basic Plan"), ("billing_frequency_quantity", .int 12)] [] []

theorem c1_witness :
    fromXml "Plan" Option.none c1WitnessXml = .ok c1LoadedRec
    ∧ buildKwargs c1LoadedRec = []
    ∧ cheddarSetattr c1LoadedRec "name" (.val (.str "Pro")) = .ok c1MutatedRec
    ∧ buildKwargs c1MutatedRec = [("name", Value.str "Pro")] := by
  have hload : fromXml "Plan" Option.none c1WitnessXml = .ok c1LoadedRec := by
    simp only [fromXml, c1WitnessXml]
    rw [show newRecord "Plan" Option.none = Record.mk "Plan" Option.none Option.none [] [] [] []
      from rfl]
    simp only [loadDataFromXml, loadChildren, loadChild]
    rfl
  have h := c1_clean_load_and_single_mutation "Plan" Option.none c1WitnessXml c1LoadedRec hload
  have hset : cheddarSetattr c1LoadedRec "name" (.val (.str "Pro")) = .ok c1MutatedRec := rfl
  have h2 := h.2 "name" (.str "Pro") c1MutatedRec (by decide) rfl (by decide)
    (by decide) hset (by
      intro w hw
      have hw2 : Option.some (Value.str "Basic Plan") = Option.some w := by
        rw [← hw]
        rfl
      cases hw2
      rfl)
  refine ⟨hload, h.1, hset, ?_⟩
  have hname : toUnderscores "name" = "name" := rfl
  rw [hname] at h2
  exact h2

/-- C9: two records are equal exactly when their IDs agree and are set
(`None` models the spec's "empty" ID), inequality is the exact negation,
and a record without an ID is not even equal to itself. -/
theorem c9_record_equality (a b : Record) :
    (recordEq a b = true ↔ (a.id = b.id ∧ a.id ≠ Option.none))
    ∧ recordNe a b = !recordEq a b
    ∧ (a.id = Option.none → recordEq a a = false) := by
  refine ⟨?_, rfl, ?_⟩
  · unfold recordEq
    constructor
    · intro h
      simp only [Bool.and_eq_true, beq_iff_eq, Option.isSome_iff_exists] at h
      obtain ⟨h1, x, hx⟩ := h
      exact ⟨h1, by simp [hx]⟩
    · rintro ⟨h1, h2⟩
      cases ha : a.id with
      | none => exact absurd ha h2
      | some x => simp [← h1, ha]
  · intro h
    simp [recordEq, h]

theorem c9_witness :
    recordEq (Record.mk "Plan" Option.none Option.none [] [] [] [])
        (Record.mk "Plan" Option.none Option.none [] [] [] []) = false
    ∧ recordNe (Record.mk "Plan" Option.none Option.none [] [] [] [])
        (Record.mk "Plan" (Option.some "x") Option.none [] [] [] [])
      = !recordEq (Record.mk "Plan" Option.none Option.none [] [] [] [])
        (Record.mk "Plan" (Option.some "x") Option.none [] [] [] []) :=
  ⟨(c9_record_equality (Record.mk "Plan" Option.none Option.none [] [] [] [])
      (Record.mk "Plan" Option.none Option.none [] [] [] [])).2.2 rfl,
   (c9_record_equality (Record.mk "Plan" Option.none Option.none [] [] [] [])
      (Record.mk "Plan" (Option.some "x") Option.none [] [] [] [])).2.1⟩

/-- C10: `Plan.is_free` holds exactly when the setup and recurring charges
sum to a value strictly between `-0.000001` and `0.000001`, and in
particular for the three sample charge pairs of the claim. -/
theorem planIsFree_planWith (a b : ℚ) :
    planIsFree (planWith a b)
      = .ok (decide (-(1 / 1000000 : ℚ) < a + b ∧ a + b < 1 / 1000000)) := by
  have h1 : cheddarGetattr (planWith a b) "setup_charge_amount" = .ok (.val (.float a)) := rfl
  have h2 : cheddarGetattr (planWith a b) "recurring_charge_amount" = .ok (.val (.float b)) := rfl
  unfold planIsFree
  rw [h1, h2]
  simp only [pyAdd, pyLtNum, pyGtNum, Bool.decide_and, Bool.and_comm]

theorem c10_plan_is_free (a b : ℚ) :
    planIsFree (planWith a b)
      = .ok (decide (-(1 / 1000000 : ℚ) < a + b ∧ a + b < 1 / 1000000))
    ∧ planIsFree (planWith 0 0) = .ok true
    ∧ planIsFree (planWith (1 / 10000000) 0) = .ok true
    ∧ planIsFree (planWith 1 0) = .ok false := by
  refine ⟨planIsFree_planWith a b, ?_, ?_, ?_⟩
  · rw [planIsFree_planWith]
    norm_num
  · rw [planIsFree_planWith]
    norm_num
  · rw [planIsFree_planWith]
    norm_num

/-- C2 counterexample: `_load_data_from_xml` (invoked by every save and
hydration) overwrites a non-empty ID with the XML element's `id`
attribute, so a record's ID can change. -/
def c2Rec : Record := .mk "Plan" (Option.some "aaa") Option.none [] [] [] []

/-- An XML element carrying a different ID. -/
def c2Xml : Xml := .elem "plan" (Option.some "bbb") Option.none Option.none []

theorem c2_counterexample :
    c2Rec.id = Option.some "aaa"
    ∧ (loadDataFromXml c2Xml true c2Rec).map Record.id = .ok (Option.some "bbb") := by
  refine ⟨rfl, ?_⟩
  simp only [c2Xml, c2Rec, loadDataFromXml, loadChildren]
  rfl

/-- C2 amended: through attribute assignment the invariant does hold —
setting `id` always fails with the immutable-field error, setting `code`
fails once an ID exists and succeeds (leaving the ID unchanged) before,
and no successful non-private assignment changes the ID; but
`_load_data_from_xml` overwrites `_id`/`_code` unconditionally
(see `c2_counterexample`). -/
theorem c2_immutability_via_setattr :
    (∀ (r : Record) (v : SetVal),
        cheddarSetattr r "id" v
          = .error (.attributeError "The CheddarGetter ID is immutable."))
    ∧ (∀ (r : Record) (v : SetVal), r.id.isSome = true →
        cheddarSetattr r "code" v
          = .error (.attributeError
              "Once an item has been saved to CheddarGetter, the code is immutable."))
    ∧ (∀ (r : Record) (w : Value), r.id = Option.none →
        ∃ r2, cheddarSetattr r "code" (.val w) = .ok r2 ∧ r2.id = r.id)
    ∧ (∀ (r : Record) (key : String) (v : SetVal) (r2 : Record),
        headIsUnderscore key = false →
        cheddarSetattr r key v = .ok r2 → r2.id = r.id) := by
  refine ⟨?_, ?_, ?_, ?_⟩
  · intro r v
    obtain ⟨k, i, c, d, cd, idt, oa⟩ := r
    rfl
  · intro r v h
    obtain ⟨k, i, c, d, cd, idt, oa⟩ := r
    cases i with
    | none => simp at h
    | some x => rfl
  · intro r w h
    obtain ⟨k, i, c, d, cd, idt, oa⟩ := r
    simp only [Record.id_mk] at h
    subst h
    cases w with
    | none => exact ⟨_, rfl, rfl⟩
    | int n => exact ⟨_, rfl, rfl⟩
    | float q => exact ⟨_, rfl, rfl⟩
    | str t => exact ⟨_, rfl, rfl⟩
  · intro r key v r2 hund hset
    obtain ⟨k, i, c, d, cd, idt, oa⟩ := r
    simp only [cheddarSetattr.eq_def, hund] at hset
    repeat' split at hset
    all_goals first
      | exact Except.noConfusion hset
      | (injection hset with hh; subst hh; rfl)
      | simp_all

theorem c2_witness :
    cheddarSetattr c2Rec "id" (.val (.str "zzz"))
      = .error (.attributeError "The CheddarGetter ID is immutable.")
    ∧ cheddarSetattr c2Rec "code" (.val (.str "zzz"))
      = .error (.attributeError
          "Once an item has been saved to CheddarGetter, the code is immutable.")
    ∧ ∃ r2, cheddarSetattr (Record.mk "Plan" Option.none Option.none [] [] [] [])
        "code" (.val (.str "zzz")) = .ok r2
        ∧ r2.id = (Record.mk "Plan" Option.none Option.none [] [] [] []).id :=
  ⟨c2_immutability_via_setattr.1 c2Rec (.val (.str "zzz")),
   c2_immutability_via_setattr.2.1 c2Rec (.val (.str "zzz")) rfl,
   c2_immutability_via_setattr.2.2.1 (Record.mk "Plan" Option.none Option.none [] [] [] [])
     (.str "zzz") rfl⟩

/-- C4 counterexample: a UUID followed by one trailing newline is not the
canonical 8-4-4-4-12 shape, yet Python's `$` anchor accepts it and the
request is routed through `/id/`. -/
def c4NewlineId : String := "550e8400-e29b-41d4-a716-446655440000\n"

theorem c4_counterexample :
    isUuidCore c4NewlineId = false
    ∧ requestUrl ⟨Option.some "PC"⟩ "/customers/get" (Option.some c4NewlineId)
        Option.none Option.none true
      = .ok ("https://cheddargetter.com/xml/customers/get/id/" ++ c4NewlineId
          ++ "/productCode/PC/", Option.none) := by
  exact ⟨rfl, rfl⟩

/-- C4 amended: identifier routing of `CheddarGetter.request`, with the
UUID test being Python's `re.match(r'^<uuid>$', ...)` — the canonical shape
optionally followed by one trailing newline.  Off creation endpoints a
matching identifier goes to `/id/`, any other to `/code/`; on a creation
endpoint (`path.strip('/')[-3:] == 'new'`) a matching identifier raises
`ValueError` and any other is demoted to the `code` POST field. -/
theorem c4_identifier_routing (cfg : CGConfig) (path c : String) :
    (lastThree (stripSlashes path) ≠ "new" →
      (reMatchesUuid c = true →
        requestUrl cfg path (Option.some c) Option.none Option.none false
          = .ok ("https://cheddargetter.com/xml/" ++ stripSlashes path ++ "/id/" ++ c,
              Option.none))
      ∧ (reMatchesUuid c = false →
        requestUrl cfg path (Option.some c) Option.none Option.none false
          = .ok ("https://cheddargetter.com/xml/" ++ stripSlashes path ++ "/code/" ++ c,
              Option.none)))
    ∧ (lastThree (stripSlashes path) = "new" →
      (reMatchesUuid c = true →
        requestUrl cfg path (Option.some c) Option.none Option.none false
          = .error (.valueError "Cannot send an ID for an object creation request."))
      ∧ (reMatchesUuid c = false →
        requestUrl cfg path (Option.some c) Option.none Option.none false
          = .ok ("https://cheddargetter.com/xml/" ++ stripSlashes path, Option.some c))) := by
  constructor
  · intro hnotnew
    constructor
    · intro hm
      simp [requestUrl, hm, hnotnew]
    · intro hm
      simp [requestUrl, hm, hnotnew]
  · intro hnew
    constructor
    · intro hm
      simp [requestUrl, hm, hnew]
    · intro hm
      simp [requestUrl, hm, hnew]

theorem c4_witness :
    requestUrl ⟨Option.some "PC"⟩ "/customers/get"
        (Option.some "550e8400-e29b-41d4-a716-446655440000") Option.none Option.none false
      = .ok ("https://cheddargetter.com/xml/customers/get/id/550e8400-e29b-41d4-a716-446655440000",
          Option.none)
    ∧ requestUrl ⟨Option.some "PC"⟩ "/customers/new"
        (Option.some "550e8400-e29b-41d4-a716-446655440000") Option.none Option.none false
      = .error (.valueError "Cannot send an ID for an object creation request.")
    ∧ requestUrl ⟨Option.some "PC"⟩ "/customers/new" (Option.some "JOHNDOE")
        Option.none Option.none false
      = .ok ("https://cheddargetter.com/xml/customers/new", Option.some "JOHNDOE") := by
  refine ⟨?_, ?_, ?_⟩
  · exact ((c4_identifier_routing ⟨Option.some "PC"⟩ "/customers/get"
      "550e8400-e29b-41d4-a716-446655440000").1 (by decide)).1 rfl
  · exact ((c4_identifier_routing ⟨Option.some "PC"⟩ "/customers/new"
      "550e8400-e29b-41d4-a716-446655440000").2 rfl).1 rfl
  · exact ((c4_identifier_routing ⟨Option.some "PC"⟩ "/customers/new" "JOHNDOE").2 rfl).2 rfl

/-- C5 counterexample: a 304 response is not 2xx, yet `raise_for_status`
only raises for 400–599, so no typed failure is selected — a well-formed
non-error XML body is returned as a success. -/
def c5Resp304 : HttpResponse :=
  ⟨304, Option.some (Xml.elem "customers" Option.none Option.none Option.none [])⟩

theorem c5_counterexample :
    c5Resp304.status = 304
    ∧ handleResponse c5Resp304
      = .ok (Xml.elem "customers" Option.none Option.none Option.none []) :=
  ⟨rfl, rfl⟩

/-- C5 amended: on a 4xx or 5xx response (the statuses `raise_for_status`
raises for) the transport raises exactly the typed failure selected by
status code — 400 and 412 bad-request, 401 auth-required, 403 forbidden,
404 not-found, 422 gateway-failure, 502 gateway-connection-error, any other
such status unexpected-response — with the message extracted from the XML
error body (the empty string when that parse fails) and the raw response
attached; 1xx/3xx non-2xx statuses fall through to the success-path body
parsing instead. -/
theorem c5_status_mapping (resp : HttpResponse) (h1 : 400 ≤ resp.status)
    (h2 : resp.status < 600) :
    handleResponse resp
      = .error ⟨(if resp.status = 400 ∨ resp.status = 412 then HttpExcKind.badRequest
          else if resp.status = 401 then HttpExcKind.authorizationRequired
          else if resp.status = 403 then HttpExcKind.forbidden
          else if resp.status = 404 then HttpExcKind.notFound
          else if resp.status = 422 then HttpExcKind.gatewayFailure
          else if resp.status = 502 then HttpExcKind.gatewayConnectionError
          else HttpExcKind.unexpectedResponse),
          (match resp.parsed with
           | Option.some x => x.text
           | Option.none => Option.some ""), true⟩ := by
  have hk : exceptionMapGet resp.status
      = (if resp.status = 400 ∨ resp.status = 412 then HttpExcKind.badRequest
          else if resp.status = 401 then HttpExcKind.authorizationRequired
          else if resp.status = 403 then HttpExcKind.forbidden
          else if resp.status = 404 then HttpExcKind.notFound
          else if resp.status = 422 then HttpExcKind.gatewayFailure
          else if resp.status = 502 then HttpExcKind.gatewayConnectionError
          else HttpExcKind.unexpectedResponse) := by
    unfold exceptionMapGet
    split_ifs <;> first | rfl | omega
  unfold handleResponse
  rw [if_pos (by simp [raisesForStatus]; omega), hk]

theorem c5_witness :
    handleResponse ⟨404, Option.none⟩
      = .error ⟨HttpExcKind.notFound, Option.some "", true⟩ := by
  have h := c5_status_mapping ⟨404, Option.none⟩ (by norm_num) (by norm_num)
  simpa using h

/-- C7 helper: the pivot's `int(value[2:])` always sees a string starting
with the inserted `/`, so (when the last character is not whitespace that
`int` would strip) the conversion always fails. -/
theorem pyIntOfString_slash (c2 c3 : Char) (h3 : c3.isWhitespace = false) :
    pyIntOfString (String.mk ['/', c2, c3])
      = .error (.valueError "invalid literal for int() with base 10") := by
  simp [pyIntOfString, List.dropWhile, h3]

/-- C7 amended: a 4-character expiration `MMYY` (no `/` at position 2, last
character not whitespace) normalizes to `MM/<century>YY` where the century
is the first two digits of the current year — except that when the current
year's last two digits exceed 90 the normalization raises `ValueError`
(the next-century pivot evaluates `int` on the substring starting at the
inserted `/`); the stored field is the normalized string. -/
theorem c7_expiration_normalization :
    (∀ (y : Nat) (c0 c1 c2 c3 : Char), c2 ≠ '/' → c3.isWhitespace = false →
      normalizeCcExpiration y (String.mk [c0, c1, c2, c3])
        = if y % 100 > 90 then .error (.valueError "invalid literal for int() with base 10")
          else .ok (String.mk ([c0, c1, '/'] ++ (toString y).toList.take 2 ++ [c2, c3])))
    ∧ ∀ (planGet : Value → Option Record) (y : Nat) (s : Record) (v res : String),
        normalizeCcExpiration y v = .ok res →
        ∃ s2, subscriptionSetattr planGet y s "cc_expiration" (.val (.str v)) = .ok s2
          ∧ lookupAssoc "cc_expiration" s2.data = Option.some (.str res) := by
  constructor
  · intro y c0 c1 c2 c3 hc2 hc3
    have hstep : normalizeCcExpiration y (String.mk [c0, c1, c2, c3])
        = (if y % 100 > 90 then
            match pyIntOfString (String.mk ['/', c2, c3]) with
            | .error e => .error e
            | .ok n =>
              let century2 := if n < 10 then (toString (y + 100)).toList.take 2
                else (toString y).toList.take 2
              .ok (String.mk ([c0, c1, '/'] ++ century2 ++ [c2, c3]))
          else .ok (String.mk ([c0, c1, '/'] ++ (toString y).toList.take 2 ++ [c2, c3]))) := by
      unfold normalizeCcExpiration
      simp [hc2]
    rw [hstep]
    by_cases hy : y % 100 > 90
    · rw [if_pos hy, if_pos hy, pyIntOfString_slash c2 c3 hc3]
    · rw [if_neg hy, if_neg hy]
  · intro planGet y s v res h
    obtain ⟨k, i, c, d, cd, idt, oa⟩ := s
    refine ⟨Record.mk k i c (insertAssoc "cc_expiration" (Value.str res) d) cd idt oa, ?_, ?_⟩
    · have hred : subscriptionSetattr planGet y (Record.mk k i c d cd idt oa) "cc_expiration"
          (.val (.str v))
          = (match normalizeCcExpiration y v with
            | .error e => .error e
            | .ok nv =>
              .ok (Record.mk k i c (insertAssoc "cc_expiration" (Value.str nv) d) cd idt oa)) := rfl
      rw [hred, h]
    · exact lookupAssoc_insertAssoc_self "cc_expiration" (Value.str res) d

/-- C7 counterexample: with month `"10"` and 2-digit year `95`, the claimed
pivot demands the next century (`"10/2195"`); the code (current year 2026)
produces `"10/2095"`. -/
theorem c7_counterexample :
    normalizeCcExpiration 2026 "1095" = .ok "10/2095"
    ∧ "10/2095" ≠ "10/2195" := by
  exact ⟨rfl, by decide⟩

theorem c7_witness :
    normalizeCcExpiration 2026 "0312" = .ok "03/2012"
    ∧ ∃ s2, subscriptionSetattr (fun _ => Option.none) 2026
        (Record.mk "Subscription" Option.none Option.none [] [] [] []) "cc_expiration"
        (.val (.str "0312")) = .ok s2
      ∧ lookupAssoc "cc_expiration" s2.data = Option.some (.str "03/2012") := by
  have h1 := c7_expiration_normalization.1 2026 '0' '3' '1' '2' (by decide) (by decide)
  rw [if_neg (by norm_num)] at h1
  constructor
  · exact h1
  · exact c7_expiration_normalization.2 (fun _ => Option.none) 2026
      (Record.mk "Subscription" Option.none Option.none [] [] [] []) "0312" "03/2012" h1

/-- C6 counterexample record: the snake_case entry `first_name` exists. -/
def c6Rec : Record :=
  .mk "Customer" Option.none Option.none [("first_name", .str "x")] [] [] []

theorem c6_counterexample :
    lookupAssoc (toUnderscores "firstName") c6Rec.data = Option.some (.str "x")
    ∧ cheddarGetattr c6Rec "firstName"
      = .error (.attributeError "Key \"firstName\" does not exist.") :=
  ⟨rfl, rfl⟩

/-- C6 amended: `__getattr__` tests membership with the attribute name *as
given* (only the value read converts to snake_case), so the claim holds
exactly for names already in snake_case form; a camelCase spelling whose
snake_case entry exists still raises the missing-key `AttributeError`
(see `c6_counterexample`), and names of `dict` methods (`hasattrDict`) or
of record methods (`classAttrNames`, outside the model) resolve to those
methods instead of the field mapping. -/
theorem c6_getattr_field_lookup (r : Record) (key : String)
    (hne : key ≠ "") (hund : headIsUnderscore key = false)
    (hid : key ≠ "id") (hcode : key ≠ "code")
    (hdict : hasattrDict key = false)
    (hclass : key ∉ classAttrNames)
    (hobj : lookupAssoc key r.objAttrs = Option.none)
    (hint : lookupAssoc key r.internalData = Option.none)
    (hsnake : toUnderscores key = key) :
    cheddarGetattr r key
      = match lookupAssoc key r.data with
        | Option.some v => .ok (.val v)
        | Option.none => .error (.attributeError ("Key \"" ++ key ++ "\" does not exist.")) := by
  have h1 : key ≠ "_id" := fun h => by subst h; exact Bool.noConfusion hund
  have h2 : key ≠ "_code" := fun h => by subst h; exact Bool.noConfusion hund
  have h3 : key ≠ "_data" := fun h => by subst h; exact Bool.noConfusion hund
  have h4 : key ≠ "_clean_data" := fun h => by subst h; exact Bool.noConfusion hund
  have hinst : instanceLookup r key = Option.none := by
    unfold instanceLookup
    rw [hobj, hint]
    simp [h1, h2, h3, h4]
  unfold cheddarGetattr
  rw [hinst]
  cases hl : lookupAssoc key r.data with
  | some v => simp [hdict, hid, hcode, hne, hund, hl, hsnake]
  | none => simp [hdict, hid, hcode, hne, hund, hl]

theorem c6_witness :
    cheddarGetattr c6Rec "first_name" = .ok (.val (.str "x")) := by
  have h := c6_getattr_field_lookup c6Rec "first_name" (by decide) rfl (by decide) (by decide)
    rfl (by decide) rfl rfl rfl
  simpa using h

/-- C3 counterexample material: an unsaved plan and a subscription whose
own validation fails (no card data, plan not free). -/
def c3Plan : Record := .mk "Plan" Option.none Option.none [] [] [] []

/-- A subscription that fails its own validation. -/
def c3Sub : Record :=
  .mk "Subscription" Option.none Option.none [] [] []
    [("plan", Assoc.one c3Plan), ("_clean_plan", Assoc.one c3Plan)]

/-- A customer with code and all required fields but the failing
subscription above. -/
def c3Cust : Record :=
  .mk "Customer" Option.none (Option.some (.str "CUST"))
    [("first_name", .str "a"), ("last_name", .str "b"), ("email", .str "e")] [] []
    [("subscription", Assoc.one c3Sub), ("meta_data", Assoc.many [])]

/-- The same customer with `email` missing. -/
def c3CustBad : Record :=
  .mk "Customer" Option.none (Option.some (.str "CUST"))
    [("first_name", .str "a"), ("last_name", .str "b")] [] []
    [("subscription", Assoc.one c3Sub), ("meta_data", Assoc.many [])]

theorem c3_counterexample :
    subscriptionValidate c3Sub = .ok false
    ∧ customerValidate c3Cust = .ok true :=
  ⟨rfl, rfl⟩

/-- C3 amended: provided the owned subscription's `validate()` completes,
`Customer.validate()` raises `ValidationError` exactly when the code is
falsy or a required field is missing, and returns `True` otherwise — the
subscription's boolean verdict (`b` below) is discarded by the caller. -/
theorem c3_customer_validate (c : Record) (s : Record) (b : Bool)
    (hs : cheddarGetattr c "subscription" = .ok (.obj s))
    (hv : subscriptionValidate s = .ok b) :
    (customerValidate c = .ok true
      ↔ (pyFalsyOpt c.code = false ∧ ∀ i ∈ requiredCustomerKeys, containsRec c i = true))
    ∧ ((∃ m, customerValidate c = .error (.validationError m))
      ↔ (pyFalsyOpt c.code = true
          ∨ ∃ i ∈ requiredCustomerKeys, containsRec c i = false)) := by
  by_cases hcode : pyFalsyOpt c.code
  · constructor
    · constructor
      · intro h
        simp [customerValidate, hcode] at h
      · rintro ⟨h, _⟩
        rw [hcode] at h
        exact Bool.noConfusion h
    · constructor
      · intro _
        exact Or.inl hcode
      · intro _
        exact ⟨"No code has been set.", by simp [customerValidate, hcode]⟩
  · have hcode' : pyFalsyOpt c.code = false := by
      cases hc : pyFalsyOpt c.code
      · rfl
      · exact absurd hc hcode
    cases hf : requiredCustomerKeys.find? (fun i => !containsRec c i) with
    | none =>
      have hall : ∀ i ∈ requiredCustomerKeys, containsRec c i = true := by
        intro i hi
        have := List.find?_eq_none.mp hf i hi
        simpa using this
      have hval : customerValidate c = .ok true := by
        unfold customerValidate
        rw [if_neg (by simp [hcode'])]
        simp only [hs, hv, hf]
      constructor
      · exact ⟨fun _ => ⟨hcode', hall⟩, fun _ => hval⟩
      · constructor
        · rintro ⟨m, hm⟩
          rw [hval] at hm
          exact Except.noConfusion hm
        · rintro (h | ⟨i, hi, hci⟩)
          · rw [hcode'] at h
            exact Bool.noConfusion h
          · rw [hall i hi] at hci
            exact Bool.noConfusion hci
    | some i =>
      have hmem := List.mem_of_find?_eq_some hf
      have hpred := List.find?_some hf
      have hci : containsRec c i = false := by
        cases hc : containsRec c i
        · rfl
        · rw [hc] at hpred
          exact Bool.noConfusion hpred
      have hval : customerValidate c
          = .error (.validationError ("Missing required key: \"" ++ i ++ "\"")) := by
        unfold customerValidate
        rw [if_neg (by simp [hcode'])]
        simp only [hs, hv, hf]
      constructor
      · constructor
        · intro h
          rw [hval] at h
          exact Except.noConfusion h
        · rintro ⟨_, hall⟩
          rw [hall i hmem] at hci
          exact Bool.noConfusion hci
      · exact ⟨fun _ => Or.inr ⟨i, hmem, hci⟩,
          fun _ => ⟨"Missing required key: \"" ++ i ++ "\"", hval⟩⟩

theorem c3_witness :
    customerValidate c3Cust = .ok true
    ∧ ∃ m, customerValidate c3CustBad = .error (.validationError m) := by
  constructor
  · exact (c3_customer_validate c3Cust c3Sub false rfl rfl).1.mpr ⟨rfl, by decide⟩
  · exact (c3_customer_validate c3CustBad c3Sub false rfl rfl).2.mpr
      (Or.inr ⟨"email", by decide, rfl⟩)

/-- C8 helper: iterating the subscription diff's keys and two-way unpacking
each key string fails with `ValueError` as soon as any key's length is not
exactly 2. -/
theorem unpackSubKwargs_error (ks : List String) (k : String) (hk : k ∈ ks)
    (hlen : k.length ≠ 2) :
    ∀ kwargs, unpackSubKwargs ks kwargs = .error (.valueError "unpack") := by
  induction ks with
  | nil => cases hk
  | cons k0 rest ih =>
    intro kwargs
    rcases List.mem_cons.mp hk with heq | hmem
    · subst heq
      simp [unpackSubKwargs, hlen]
    · by_cases h0 : k0.length = 2
      · simpa [unpackSubKwargs, h0] using ih hmem _
      · simp [unpackSubKwargs, h0]

/-- C8: an already-saved customer whose subscription diff contains a dirty
field named by anything but a 2-character string cannot be saved: the
`for key, val in sub_kwargs:` loop unpacks each *key* and raises
`ValueError` before the `/customers/edit/` request is built. -/
theorem c8_customer_save_unpack_failure (c s : Record) (sk : List (String × Value)) (k : String)
    (hs : cheddarGetattr c "subscription" = .ok (.obj s))
    (hid : c.id.isSome = true)
    (hval : customerValidate c = .ok true)
    (hmeta : cheddarGetattr c "meta_data" = .ok (.objs []))
    (hsk : subscriptionBuildKwargs s = .ok sk)
    (hk : k ∈ keysOf sk) (hlen : k.length ≠ 2) :
    customerSave c = .error (.valueError "unpack") := by
  have hnew : isNewRec c = false := by
    simp [isNewRec, containsRec, hid]
  have hempty : sk.isEmpty = false := by
    cases sk with
    | nil => cases hk
    | cons hd tl => rfl
  have hedit : customerSaveEdit c (buildKwargs c) = .error (.valueError "unpack") := by
    unfold customerSaveEdit
    simp only [hs, hsk]
    rw [if_neg (by simp [hempty])]
    simp only [unpackSubKwargs_error (keysOf sk) k hk hlen (buildKwargs c)]
  unfold customerSave
  simp only [hval, hmeta]
  simp [hnew, pyTruthyGet]
  exact hedit

/-- A concrete plan, dirty subscription and saved customer for the C8
witness. -/
def c8Plan : Record := .mk "Plan" Option.none Option.none [] [] [] []

/-- A subscription with one dirty credit-card field. -/
def c8Sub : Record :=
  .mk "Subscription" Option.none Option.none [("cc_first_name", .str "J")] [] []
    [("plan", Assoc.one c8Plan), ("_clean_plan", Assoc.one c8Plan)]

/-- A saved customer owning `c8Sub`. -/
def c8Cust : Record :=
  .mk "Customer" (Option.some "deadbeef") (Option.some (.str "CUST"))
    [("first_name", .str "a"), ("last_name", .str "b"), ("email", .str "e")]
    [("first_name", .str "a"), ("last_name", .str "b"), ("email", .str "e")] []
    [("subscription", Assoc.one c8Sub), ("meta_data", Assoc.many [])]

theorem c8_witness : customerSave c8Cust = .error (.valueError "unpack") :=
  c8_customer_save_unpack_failure c8Cust c8Sub
    [("cc_first_name", .str "J"), ("plan_code", .none)] "cc_first_name"
    rfl rfl rfl rfl rfl (by decide) (by decide)

end PyCheddar
